import Mathlib

/-! LightBench: light sensors test bench firmware (`src/main.cpp`)

A shallow embedding of the rendering and sampling core of the firmware:
the contrast filter, the palette mappers, the bar-meter and history renderers,
the circular sample buffers, the history shift registers, the three mode
functions with their cadence checks, and the serial command handler.

Conventions of the embedding.

* The target is an ATmega328P: `int` is a 16-bit two's-complement integer,
  `uint8_t`, `uint16_t` and `uint32_t` are naturals reduced modulo `2^8`,
  `2^16` and `2^32`.  C's `/` and `%` on `int` truncate toward zero
  (`Int.tdiv`, `Int.tmod`).
* Global variables of the sketch are the fields of `State`; every function that
  reads or writes a global takes the state and returns the new one.
* A packed colour is the `uint32_t` produced by the strip's colour helper:
  `0x00RRGGBB`.
* `float` values are exact numbers: rationals where the code only adds,
  multiplies, divides and compares them, reals in the light-level mapper, whose
  `log10` is the exact logarithm (these definitions are noncomputable).
-/

namespace LightBench

/-! ## Configuration macros (lines 26-42) -/

/-- The macro `LED_COUNT`. -/
abbrev LED_COUNT : Nat := 8

/-- The macro `CONTRAST_MIN`. -/
abbrev CONTRAST_MIN : Nat := 0

/-- The macro `CONTRAST_MAX`. -/
abbrev CONTRAST_MAX : Nat := 15

/-- The macro `METER_RANGE`: the meter value runs over 0-511. -/
abbrev METER_RANGE : Nat := 512

/-- The macro `TEMP_MIN_C`. -/
abbrev TEMP_MIN_C : Nat := 0

/-- The macro `TEMP_MAX_C`. -/
abbrev TEMP_MAX_C : Nat := 100

/-- The macro `SLOW_SAMPLE_INTERVAL`: the averaging samples are 100 ms apart. -/
abbrev SLOW_SAMPLE_INTERVAL : Nat := 100

/-- The macro `DISPLAY_INTERVAL`: the display is updated every 1000 ms. -/
abbrev DISPLAY_INTERVAL : Nat := 1000

/-! ## Machine arithmetic -/

/-- The conversion `(uint8_t)x` of an integer: reduction modulo `2^8`. -/
def toUInt8 (x : Int) : Nat := (x % 256).toNat

/-- The value an `int` expression takes on the 16-bit target: the exact result
wrapped into `[-32768, 32767]`. -/
def wrapInt16 (x : Int) : Int := (x + 32768) % 65536 - 32768

/-- The conversion of a `float` to an integer type: the fractional part is
discarded (truncation toward zero). -/
def truncToInt (x : ℚ) : Int := if 0 ≤ x then ⌊x⌋ else ⌈x⌉

/-- The difference `currentTime - last` of two `unsigned long` (32-bit)
timestamps: subtraction modulo `2^32`. -/
def elapsed (currentTime last : Nat) : Nat :=
  (((currentTime : Int) - (last : Int)) % 2 ^ 32).toNat

/-- Arduino's macro
`constrain(amt,low,high) ((amt)<(low)?(low):((amt)>(high)?(high):(amt)))`. -/
def constrain {α : Type} [LinearOrder α] (amt low high : α) : α :=
  if amt < low then low else if amt > high then high else amt

/-! ## Packed colours -/

/-- Modelled from the spec: the strip driver's colour-packing helper
`strip.Color(r, g, b)` (library code, not part of the repository): three 8-bit
channels packed into a 32-bit word with a zero top byte, red in bits 16-23,
green in bits 8-15, blue in bits 0-7. -/
def Color (r g b : Nat) : Nat := (r % 256) * 65536 + (g % 256) * 256 + b % 256

/-- The expression `(uint8_t)((color >> 16) & 0xFF)`. -/
def redOf (color : Nat) : Nat := (color / 65536) % 256

/-- The expression `(uint8_t)((color >> 8) & 0xFF)`. -/
def greenOf (color : Nat) : Nat := (color / 256) % 256

/-- The expression `(uint8_t)(color & 0xFF)`. -/
def blueOf (color : Nat) : Nat := color % 256

/-- One channel of `applyContrast`: `ch = (ch * contrast) / CONTRAST_MAX;` with
`ch` and `contrast` of type `uint8_t`.  Both operands are promoted to `int`, the
product is an `int`, the quotient is converted back to `uint8_t`. -/
def contrastChannel (contrast ch : Nat) : Nat :=
  toUInt8 (Int.tdiv (wrapInt16 ((ch : Int) * (contrast : Int))) (CONTRAST_MAX : Int))

/-- The function `applyContrast` (lines 423-433); the global `contrast` it reads
is the first argument. -/
def applyContrast (contrast : Nat) (color : Nat) : Nat :=
  let r := redOf color
  let g := greenOf color
  let b := blueOf color
  let r := contrastChannel contrast r
  let g := contrastChannel contrast g
  let b := contrastChannel contrast b
  Color r g b

/-- The palette `meterColors` (lines 61-70): 4 green, 3 amber, 1 red. -/
def meterColors : List Nat :=
  [ Color 0 255 0,
    Color 0 255 0,
    Color 0 255 0,
    Color 0 255 0,
    Color 255 191 0,
    Color 255 191 0,
    Color 255 191 0,
    Color 255 0 0 ]

/-! ## Device state -/

/-- The enumeration `OperationMode` (lines 45-49). -/
inductive OperationMode where
  | MODE_LIGHT_LEVEL
  | MODE_RGB_COLOR
  | MODE_TEMPERATURE
  deriving DecidableEq, Repr

/-- The lines the sketch prints on the serial port, by kind; a number printed
inside a line is kept as the argument. -/
inductive SerialLine where
  | switchedLight
  | switchedColor
  | switchedTemperature
  | contrastIs (level : Nat)
  | menu (level : Nat)
  | temperature (avgTemp : ℚ)
  deriving DecidableEq

/-- One row `colorSamples[i]` of the array `uint16_t colorSamples[10][3]`:
the raw R, G, B readings of one sample. -/
structure ColorSample where
  r : Nat
  g : Nat
  b : Nat
  deriving DecidableEq, Repr

/-- The global variables of the sketch (lines 57-87) together with the state of
the peripherals it drives: the level of pin `TCS_LED_PIN`, the pixel buffer of
the strip, the frame last committed by `strip.show()`, and the serial output
printed so far.  `float` values are held as exact rationals. -/
structure State where
  currentMode : OperationMode
  contrast : Nat
  colorHistory : List Nat
  tempHistory : List ℚ
  lastFastSample : Nat
  lastSlowSample : Nat
  lastDisplay : Nat
  tempSamples : List ℚ
  colorSamples : List ColorSample
  colorSampleIndex : Nat
  tempSampleIndex : Nat
  tcsLedPin : Bool
  pixels : List Nat
  shown : List Nat
  serialOut : List SerialLine
  deriving DecidableEq

/-- The state when `loop()` first runs: the initialisers of the globals
(lines 57-87) and the `memset`s of `setup()` (lines 127-130); `setup()` drives
`TCS_LED_PIN` low and shows the empty strip.  `serialOut` records the lines
printed from then on. -/
def initialState : State where
  currentMode := .MODE_LIGHT_LEVEL
  contrast := 8
  colorHistory := List.replicate LED_COUNT 0
  tempHistory := List.replicate LED_COUNT 0
  lastFastSample := 0
  lastSlowSample := 0
  lastDisplay := 0
  tempSamples := List.replicate 10 0
  colorSamples := List.replicate 10 ⟨0, 0, 0⟩
  colorSampleIndex := 0
  tempSampleIndex := 0
  tcsLedPin := false
  pixels := List.replicate LED_COUNT 0
  shown := List.replicate LED_COUNT 0
  serialOut := []

/-! ## The strip capability -/

/-- Modelled from the spec: the strip capability `clear()` (library code, not
part of the repository): every pixel of the buffer is set to off. -/
def stripClear (s : State) : State :=
  { s with pixels := List.replicate LED_COUNT 0 }

/-- Modelled from the spec: the strip capability `setPixel(index 0..7, RGB)`
(library code, not part of the repository): the buffered pixel `n` takes the
colour `c`; an index outside the strip is ignored. -/
def stripSetPixelColor (s : State) (n : Nat) (c : Nat) : State :=
  { s with pixels := s.pixels.set n c }

/-- Modelled from the spec: the strip capability `show()` (library code, not
part of the repository): commits the buffered pixel state to the hardware. -/
def stripShow (s : State) : State :=
  { s with shown := s.pixels }

/-! ## Bar-meter renderer -/

/-- The loop of `displayMeter` (lines 347-350),
`for (int i = 0; i < onLeds - 1; i++) strip.setPixelColor(i, applyContrast(meterColors[i]));`
as the fold of its body over `i = 0, 1, ..., onLeds - 2`. -/
def displayMeterFull (s : State) (onLeds : Int) : State :=
  (List.range (onLeds - 1).toNat).foldl
    (fun s i => stripSetPixelColor s i (applyContrast s.contrast (meterColors.getD i 0))) s

/-- One channel of the smoothed last LED: `ch = (ch * remain) / 16;` with `ch`
a `uint8_t` and `remain` an `int` (lines 359-361). -/
def smoothChannel (ch : Nat) (remain : Int) : Nat :=
  toUInt8 (Int.tdiv (wrapInt16 ((ch : Int) * remain)) 16)

/-- The function `displayMeter` (lines 335-369). -/
def displayMeter (s : State) (value : Int) : State :=
  let segmentSize : Int := Int.tdiv METER_RANGE LED_COUNT
  let onLeds : Int := wrapInt16 (Int.tdiv value segmentSize + 1)
  let remain : Int := Int.tdiv (wrapInt16 (Int.tmod value segmentSize * 16)) segmentSize
  let onLeds := constrain onLeds 0 (LED_COUNT : Int)
  let s := stripClear s
  let s := displayMeterFull s onLeds
  let s :=
    if onLeds > 0 then
      let baseColor := meterColors.getD (onLeds - 1).toNat 0
      let r := redOf baseColor
      let g := greenOf baseColor
      let b := blueOf baseColor
      let r := smoothChannel r remain
      let g := smoothChannel g remain
      let b := smoothChannel b remain
      let smoothColor := Color r g b
      let smoothColor := applyContrast s.contrast smoothColor
      stripSetPixelColor s (onLeds - 1).toNat smoothColor
    else s
  stripShow s

/-! ## Sample aggregators -/

/-- The sampling block of `runRGBColorMode` (lines 247-251): the reading
`r, g, b` (each a `uint16_t`) is stored in row `colorSampleIndex` of
`colorSamples`, and the index advances modulo 10. -/
def recordColorSample (s : State) (r g b : Nat) : State :=
  { s with
    colorSamples := s.colorSamples.set s.colorSampleIndex ⟨r, g, b⟩
    colorSampleIndex := (s.colorSampleIndex + 1) % 10 }

/-- The accumulation loop of `runRGBColorMode` for one channel (lines 259-264):
`uint32_t avg = 0; for (int i = 0; i < 10; i++) avg += colorSamples[i][k];`. -/
def sumColorChannel (samples : List ColorSample) (ch : ColorSample → Nat) : Nat :=
  (List.range 10).foldl (fun avg i => (avg + ch (samples.getD i ⟨0, 0, 0⟩)) % 2 ^ 32) 0

/-- The averaging block of `runRGBColorMode` (lines 259-267): the three sums
followed by `avgR /= 10; avgG /= 10; avgB /= 10;`.  The result is
`(avgR, avgG, avgB)`. -/
def colorMean (s : State) : Nat × Nat × Nat :=
  let avgR := sumColorChannel s.colorSamples ColorSample.r
  let avgG := sumColorChannel s.colorSamples ColorSample.g
  let avgB := sumColorChannel s.colorSamples ColorSample.b
  (avgR / 10, avgG / 10, avgB / 10)

/-- The sampling block of `runTemperatureMode` (lines 305-306). -/
def recordTempSample (s : State) (temp : ℚ) : State :=
  { s with
    tempSamples := s.tempSamples.set s.tempSampleIndex temp
    tempSampleIndex := (s.tempSampleIndex + 1) % 10 }

/-! ## History shift registers -/

/-- The shifting loop shared by `runRGBColorMode` (lines 290-292) and
`runTemperatureMode` (lines 326-328),
`for (int i = LED_COUNT - 1; i > 0; i--) history[i] = history[i - 1];`:
`shiftHistory n h` runs the iterations `i = n, n - 1, ..., 1` on `h`. -/
def shiftHistory {α : Type} : Nat → List α → List α
  | 0, h => h
  | i + 1, h =>
    match h[i]? with
    | some x => shiftHistory i (h.set (i + 1) x)
    | none => shiftHistory i h

/-- The push of a new value into a history array (lines 289-293 and 325-329):
the shifting loop followed by `history[0] = value;`. -/
def pushHistory {α : Type} (h : List α) (value : α) : List α :=
  (shiftHistory (LED_COUNT - 1) h).set 0 value

/-! ## Palette mappers and history renderers -/

/-- The function `temperatureToIronColor` (lines 388-421), with the `float`
arithmetic carried out over the rationals. -/
def temperatureToIronColor (temp : ℚ) : Nat :=
  let temp := constrain temp (TEMP_MIN_C : ℚ) (TEMP_MAX_C : ℚ)
  let normalized := temp / (((TEMP_MAX_C - TEMP_MIN_C : Nat) : ℚ))
  if normalized < 1 / 4 then
    let r := toUInt8 (truncToInt (normalized * 4 * 128))
    let g := 0
    let b := toUInt8 (truncToInt (normalized * 4 * 255))
    Color r g b
  else if normalized < 1 / 2 then
    let loc := (normalized - 1 / 4) * 4
    let r := toUInt8 (truncToInt (128 + loc * 127))
    let g := 0
    let b := toUInt8 (truncToInt (255 * (1 - loc)))
    Color r g b
  else if normalized < 3 / 4 then
    let loc := (normalized - 1 / 2) * 4
    let r := 255
    let g := toUInt8 (truncToInt (loc * 255))
    let b := 0
    Color r g b
  else
    let loc := (normalized - 3 / 4) * 4
    let r := 255
    let g := 255
    let b := toUInt8 (truncToInt (loc * 255))
    Color r g b

/-- The function `displayColorHistory` (lines 371-377). -/
def displayColorHistory (s : State) : State :=
  let s := (List.range LED_COUNT).foldl
    (fun s i => stripSetPixelColor s i (applyContrast s.contrast (s.colorHistory.getD i 0))) s
  stripShow s

/-- The function `displayTemperatureHistory` (lines 379-386). -/
def displayTemperatureHistory (s : State) : State :=
  let s := (List.range LED_COUNT).foldl
    (fun s i =>
      let color := temperatureToIronColor (s.tempHistory.getD i 0)
      let color := applyContrast s.contrast color
      stripSetPixelColor s i color) s
  stripShow s

/-- The colour-ratio mapper of `runRGBColorMode` (lines 270-285): from the mean
channels to the `uint8_t` triple `(red, green, blue)`, with the `float`
arithmetic carried out over the rationals. -/
def ratioColor (avgR avgG avgB : Nat) : Nat × Nat × Nat :=
  if (avgR + avgG + avgB) % 2 ^ 32 > 0 then
    let total : ℚ := (((avgR + avgG + avgB) % 2 ^ 32 : Nat) : ℚ)
    let red := toUInt8 (truncToInt (constrain ((avgR : ℚ) * 255 / total) 0 255))
    let green := toUInt8 (truncToInt (constrain ((avgG : ℚ) * 255 / total) 0 255))
    let blue := toUInt8 (truncToInt (constrain ((avgB : ℚ) * 255 / total) 0 255))
    let brightness : ℚ := constrain (total / 30000) (1 / 10) 1
    let red := toUInt8 (truncToInt ((red : ℚ) * brightness))
    let green := toUInt8 (truncToInt ((green : ℚ) * brightness))
    let blue := toUInt8 (truncToInt ((blue : ℚ) * brightness))
    (red, green, blue)
  else
    (0, 0, 0)

/-- The function `runRGBColorMode` (lines 239-297); `r g b` is the reading
`tcs.getRawData` delivers (the clear channel is read and not used). -/
def runRGBColorMode (s : State) (currentTime : Nat) (r g b : Nat) : State :=
  let s :=
    if elapsed currentTime s.lastSlowSample ≥ SLOW_SAMPLE_INTERVAL then
      let s := { s with lastSlowSample := currentTime }
      recordColorSample s r g b
    else s
  if elapsed currentTime s.lastDisplay ≥ DISPLAY_INTERVAL then
    let s := { s with lastDisplay := currentTime }
    let avg := colorMean s
    let rgb := ratioColor avg.1 avg.2.1 avg.2.2
    let currentColor := Color rgb.1 rgb.2.1 rgb.2.2
    let s := { s with colorHistory := pushHistory s.colorHistory currentColor }
    displayColorHistory s
  else s

/-- The averaging block of `runTemperatureMode` (lines 314-318):
`float avgTemp = 0; for (int i = 0; i < 10; i++) avgTemp += tempSamples[i]; avgTemp /= 10;`. -/
def tempMean (s : State) : ℚ :=
  (List.range 10).foldl (fun avgTemp i => avgTemp + s.tempSamples.getD i 0) 0 / 10

/-- The function `runTemperatureMode` (lines 299-333); `temp` is the reading
`mlx.readObjectTempC()` delivers. -/
def runTemperatureMode (s : State) (currentTime : Nat) (temp : ℚ) : State :=
  let s :=
    if elapsed currentTime s.lastSlowSample ≥ SLOW_SAMPLE_INTERVAL then
      let s := { s with lastSlowSample := currentTime }
      recordTempSample s temp
    else s
  if elapsed currentTime s.lastDisplay ≥ DISPLAY_INTERVAL then
    let s := { s with lastDisplay := currentTime }
    let avgTemp := tempMean s
    let s := { s with serialOut := s.serialOut ++ [SerialLine.temperature avgTemp] }
    let s := { s with tempHistory := pushHistory s.tempHistory avgTemp }
    displayTemperatureHistory s
  else s

/-! ## Serial command handler -/

/-- The function `handleSerialInput` (lines 171-218); `input` is the character
returned by `Serial.read()`. -/
def handleSerialInput (s : State) (input : Char) : State :=
  match input with
  | 'L' | 'l' =>
    { s with
      currentMode := .MODE_LIGHT_LEVEL
      serialOut := s.serialOut ++ [.switchedLight] }
  | 'C' | 'c' =>
    { s with
      currentMode := .MODE_RGB_COLOR
      serialOut := s.serialOut ++ [.switchedColor]
      tcsLedPin := true
      colorSamples := List.replicate 10 ⟨0, 0, 0⟩
      colorSampleIndex := 0 }
  | 'T' | 't' =>
    { s with
      currentMode := .MODE_TEMPERATURE
      serialOut := s.serialOut ++ [.switchedTemperature]
      tcsLedPin := false
      tempSamples := List.replicate 10 0
      tempSampleIndex := 0 }
  | '+' =>
    if s.contrast < CONTRAST_MAX then
      { s with
        contrast := s.contrast + 1
        serialOut := s.serialOut ++ [.contrastIs (s.contrast + 1)] }
    else s
  | '-' =>
    if s.contrast > CONTRAST_MIN then
      { s with
        contrast := s.contrast - 1
        serialOut := s.serialOut ++ [.contrastIs (s.contrast - 1)] }
    else s
  | '?' | 'h' | 'H' =>
    { s with serialOut := s.serialOut ++ [.menu s.contrast] }
  | _ => s

/-- The device state after the serial bytes `inputs` have been handled, in
order, starting from the initial state. -/
def afterSerial (inputs : List Char) : State :=
  inputs.foldl handleSerialInput initialState


/-- The colour aggregator after the samples `xs` have been recorded, in order,
by the sampling block of `runRGBColorMode`. -/
def recordColorSamples (s : State) (xs : List ColorSample) : State :=
  xs.foldl (fun s x => recordColorSample s x.r x.g x.b) s

/-- The number of lit (non-black) LEDs of a frame. -/
def litCount (frame : List Nat) : Nat := frame.countP (fun c => c ≠ 0)

/-! ## Light level mode -/

/-- The macro `LIGHT_MIN_LUX`. -/
abbrev LIGHT_MIN_LUX : Nat := 1

/-- The macro `LIGHT_MAX_LUX`. -/
abbrev LIGHT_MAX_LUX : Nat := 65536

/-- The macro `FAST_SAMPLE_INTERVAL`: the light level is sampled every 100 ms. -/
abbrev FAST_SAMPLE_INTERVAL : Nat := 100

/-- The conversion `(int)x` of a real-valued `float`: the fractional part is
discarded (truncation toward zero). -/
noncomputable def truncRealToInt (x : ℝ) : Int := if 0 ≤ x then ⌊x⌋ else ⌈x⌉

/-- The logarithmic meter mapper of `runLightLevelMode` (lines 227-232), from the
reading `lux` to `meterValue`; `log10` is the exact real logarithm to base 10,
so the `float` arithmetic is carried out over the reals. -/
noncomputable def meterValueOfLux (lux : ℝ) : Int :=
  let logLux := Real.logb 10 (constrain lux (LIGHT_MIN_LUX : ℝ) (LIGHT_MAX_LUX : ℝ))
  let logMin := Real.logb 10 (LIGHT_MIN_LUX : ℝ)
  let logMax := Real.logb 10 (LIGHT_MAX_LUX : ℝ)
  let meterValue := truncRealToInt ((logLux - logMin) / (logMax - logMin) * (METER_RANGE : ℝ))
  constrain meterValue 0 ((METER_RANGE : Int) - 1)

/-- The function `runLightLevelMode` (lines 220-237); `lux` is the reading
`lightMeter.readLightLevel()` delivers. -/
noncomputable def runLightLevelMode (s : State) (currentTime : Nat) (lux : ℝ) : State :=
  if elapsed currentTime s.lastFastSample ≥ FAST_SAMPLE_INTERVAL then
    let s := { s with lastFastSample := currentTime }
    if lux ≥ 0 then
      displayMeter s (meterValueOfLux lux)
    else s
  else s

/-! ## Blocks of the colour and temperature modes -/

/-- The normalised channel of the colour-ratio mapper (lines 274-276):
`(uint8_t)constrain((avg * 255.0) / total, 0, 255)`. -/
def ratioChannel (avg : Nat) (total : ℚ) : Nat :=
  toUInt8 (truncToInt (constrain ((avg : ℚ) * 255 / total) 0 255))

/-- The brightness scalar of the colour-ratio mapper (line 279):
`constrain(total / 30000.0, 0.1, 1.0)`. -/
def ratioBrightness (total : ℚ) : ℚ :=
  constrain (total / 30000) (1 / 10) 1

/-- The sampling block of `runRGBColorMode` with its cadence check
(lines 241-252). -/
def sampleColorTick (s : State) (currentTime : Nat) (r g b : Nat) : State :=
  if elapsed currentTime s.lastSlowSample ≥ SLOW_SAMPLE_INTERVAL then
    let s := { s with lastSlowSample := currentTime }
    recordColorSample s r g b
  else s

/-- The display block of `runRGBColorMode` with its cadence check
(lines 255-296). -/
def displayColorTick (s : State) (currentTime : Nat) : State :=
  if elapsed currentTime s.lastDisplay ≥ DISPLAY_INTERVAL then
    let s := { s with lastDisplay := currentTime }
    let avg := colorMean s
    let rgb := ratioColor avg.1 avg.2.1 avg.2.2
    let currentColor := Color rgb.1 rgb.2.1 rgb.2.2
    let s := { s with colorHistory := pushHistory s.colorHistory currentColor }
    displayColorHistory s
  else s

/-- The sampling block of `runTemperatureMode` with its cadence check
(lines 301-307). -/
def sampleTempTick (s : State) (currentTime : Nat) (temp : ℚ) : State :=
  if elapsed currentTime s.lastSlowSample ≥ SLOW_SAMPLE_INTERVAL then
    let s := { s with lastSlowSample := currentTime }
    recordTempSample s temp
  else s

/-- The display block of `runTemperatureMode` with its cadence check
(lines 310-332). -/
def displayTempTick (s : State) (currentTime : Nat) : State :=
  if elapsed currentTime s.lastDisplay ≥ DISPLAY_INTERVAL then
    let s := { s with lastDisplay := currentTime }
    let avgTemp := tempMean s
    let s := { s with serialOut := s.serialOut ++ [SerialLine.temperature avgTemp] }
    let s := { s with tempHistory := pushHistory s.tempHistory avgTemp }
    displayTemperatureHistory s
  else s

/-- The colour `currentColor` the display block of `runRGBColorMode` computes
from the sample array (lines 258-287). -/
def currentColorOf (s : State) : Nat :=
  let avg := colorMean s
  let rgb := ratioColor avg.1 avg.2.1 avg.2.2
  Color rgb.1 rgb.2.1 rgb.2.2

/-- A run of the colour mode: the mode is entered with `'C'`, then
`runRGBColorMode` is called at the times 100, 200, ..., 1000 ms, the sensor
reading `(100,100,100)` each time.  Every call records a sample; the call at
1000 ms is also the first display tick. -/
def colorScenario : State :=
  [100, 200, 300, 400, 500, 600, 700, 800, 900, 1000].foldl
    (fun s currentTime => runRGBColorMode s currentTime 100 100 100) (afterSerial ['C'])

/-! ## Main loop, reachable states and array accesses -/

/-- One iteration of `loop()` (lines 136-156): `currentTime` is the value of
`millis()`, `serial` the byte waiting on the serial port, if any, and `lux`,
`r g b`, `temp` the readings the sensors deliver when they are polled. -/
noncomputable def loop (s : State) (currentTime : Nat) (serial : Option Char) (lux : ℝ)
    (r g b : Nat) (temp : ℚ) : State :=
  let s :=
    match serial with
    | some input => handleSerialInput s input
    | none => s
  match s.currentMode with
  | .MODE_LIGHT_LEVEL => runLightLevelMode s currentTime lux
  | .MODE_RGB_COLOR => runRGBColorMode s currentTime r g b
  | .MODE_TEMPERATURE => runTemperatureMode s currentTime temp

/-- The states the sketch passes through: the initial state, and every state
obtained from such a state by a serial command, a light-mode tick, or the
sampling block or the display block of the colour or temperature mode, at any
time and with any sensor reading. -/
inductive Reachable : State → Prop where
  | init : Reachable initialState
  | serial (s : State) (input : Char) : Reachable s → Reachable (handleSerialInput s input)
  | light (s : State) (currentTime : Nat) (lux : ℝ) :
      Reachable s → Reachable (runLightLevelMode s currentTime lux)
  | colorSample (s : State) (currentTime r g b : Nat) :
      Reachable s → Reachable (sampleColorTick s currentTime r g b)
  | colorDisplay (s : State) (currentTime : Nat) :
      Reachable s → Reachable (displayColorTick s currentTime)
  | tempSample (s : State) (currentTime : Nat) (temp : ℚ) :
      Reachable s → Reachable (sampleTempTick s currentTime temp)
  | tempDisplay (s : State) (currentTime : Nat) :
      Reachable s → Reachable (displayTempTick s currentTime)

/-- The value of `onLeds` in `displayMeter` after the `constrain` of line 341. -/
def meterOnLeds (value : Int) : Int :=
  constrain (wrapInt16 (Int.tdiv value (Int.tdiv METER_RANGE LED_COUNT) + 1)) 0 (LED_COUNT : Int)

/-- The indices at which `displayMeter` reads `meterColors` and writes the
strip: the loop counter `i = 0, ..., onLeds - 2` of lines 347-350, and the index
`onLeds - 1` of lines 354 and 365, used when `onLeds > 0`. -/
def displayMeterIndices (value : Int) : List Int :=
  (List.range (meterOnLeds value - 1).toNat).map (fun (i : Nat) => (i : Int)) ++
    (if meterOnLeds value > 0 then [meterOnLeds value - 1] else [])

/-! ## Auxiliary facts: machine arithmetic and colour packing -/

theorem wrapInt16_of_small (x : Int) (h1 : -32768 ≤ x) (h2 : x < 32768) : wrapInt16 x = x := by
  unfold wrapInt16
  omega

theorem toUInt8_natCast (n : Nat) (h : n < 256) : toUInt8 (n : Int) = n := by
  unfold toUInt8
  omega

theorem redOf_Color (r g b : Nat) : redOf (Color r g b) = r % 256 := by
  unfold redOf Color
  omega

theorem greenOf_Color (r g b : Nat) : greenOf (Color r g b) = g % 256 := by
  unfold greenOf Color
  omega

theorem blueOf_Color (r g b : Nat) : blueOf (Color r g b) = b % 256 := by
  unfold blueOf Color
  omega

theorem Color_channels (c : Nat) (hc : c < 2 ^ 24) : Color (redOf c) (greenOf c) (blueOf c) = c := by
  unfold redOf greenOf blueOf Color
  omega

theorem redOf_lt (c : Nat) : redOf c < 256 := by
  unfold redOf
  omega

theorem greenOf_lt (c : Nat) : greenOf c < 256 := by
  unfold greenOf
  omega

theorem blueOf_lt (c : Nat) : blueOf c < 256 := by
  unfold blueOf
  omega

/-- For a contrast level in 0..15 the 16-bit product never overflows and the
channel is `ch * contrast / 15`. -/
theorem contrastChannel_eq (contrast ch : Nat) (hc : contrast ≤ 15) (hch : ch < 256) :
    contrastChannel contrast ch = ch * contrast / 15 := by
  have hp : ch * contrast ≤ 255 * 15 := Nat.mul_le_mul (by omega) hc
  unfold contrastChannel
  have hcast : ((ch : Int) * (contrast : Int)) = ((ch * contrast : Nat) : Int) := by push_cast; rfl
  rw [hcast, wrapInt16_of_small _ (by omega) (by omega)]
  rw [← Int.ofNat_tdiv]
  apply toUInt8_natCast
  show ch * contrast / 15 < 256
  omega

theorem contrastChannel_lt (contrast ch : Nat) : contrastChannel contrast ch < 256 := by
  unfold contrastChannel toUInt8
  omega


theorem applyContrast_eq (contrast c : Nat) (hc : contrast ≤ 15) :
    applyContrast contrast c =
      Color (redOf c * contrast / 15) (greenOf c * contrast / 15) (blueOf c * contrast / 15) := by
  unfold applyContrast
  simp only [contrastChannel_eq _ _ hc (redOf_lt c), contrastChannel_eq _ _ hc (greenOf_lt c),
    contrastChannel_eq _ _ hc (blueOf_lt c)]

/-- C1: for every RGB colour `c` (three 8-bit channels packed with a zero top
byte, that is `c < 2^24`), `applyContrast` at contrast level 15 returns `c`
unchanged and at contrast level 0 returns black `(0,0,0)`. -/
theorem applyContrast_max_min (c : Nat) (hc : c < 2 ^ 24) :
    applyContrast 15 c = c ∧ applyContrast 0 c = Color 0 0 0 := by
  constructor
  · rw [applyContrast_eq 15 c (by omega)]
    simp only [Nat.mul_div_cancel _ (by decide : 0 < 15)]
    exact Color_channels c hc
  · rw [applyContrast_eq 0 c (by omega)]
    simp

theorem applyContrast_max_min_witness :
    (0xFFBF00 : Nat) < 2 ^ 24 ∧ applyContrast 15 0xFFBF00 = 0xFFBF00 ∧
      applyContrast 0 0xFFBF00 = Color 0 0 0 :=
  ⟨by decide, applyContrast_max_min 0xFFBF00 (by decide)⟩

theorem channel_mono (ch a b : Nat) (hab : a ≤ b) : ch * a / 15 ≤ ch * b / 15 :=
  Nat.div_le_div_right (Nat.mul_le_mul_left ch hab)

theorem scaled_lt (ch k : Nat) (hch : ch < 256) (hk : k ≤ 15) : ch * k / 15 < 256 := by
  have hp : ch * k ≤ 255 * 15 := Nat.mul_le_mul (by omega) hk
  omega

/-- C2: for every colour `c` and all contrast levels `a ≤ b ≤ 15`, each of the
R, G and B channels of `applyContrast` at level `a` is at most the same channel
of `applyContrast` at level `b`. -/
theorem applyContrast_mono (c a b : Nat) (hab : a ≤ b) (hb : b ≤ 15) :
    redOf (applyContrast a c) ≤ redOf (applyContrast b c) ∧
    greenOf (applyContrast a c) ≤ greenOf (applyContrast b c) ∧
    blueOf (applyContrast a c) ≤ blueOf (applyContrast b c) := by
  have ha : a ≤ 15 := le_trans hab hb
  rw [applyContrast_eq a c ha, applyContrast_eq b c hb]
  simp only [redOf_Color, greenOf_Color, blueOf_Color]
  rw [Nat.mod_eq_of_lt (scaled_lt _ a (redOf_lt c) ha), Nat.mod_eq_of_lt (scaled_lt _ b (redOf_lt c) hb),
    Nat.mod_eq_of_lt (scaled_lt _ a (greenOf_lt c) ha), Nat.mod_eq_of_lt (scaled_lt _ b (greenOf_lt c) hb),
    Nat.mod_eq_of_lt (scaled_lt _ a (blueOf_lt c) ha), Nat.mod_eq_of_lt (scaled_lt _ b (blueOf_lt c) hb)]
  exact ⟨channel_mono _ a b hab, channel_mono _ a b hab, channel_mono _ a b hab⟩

theorem applyContrast_mono_witness :
    redOf (applyContrast 3 0xFFBF00) ≤ redOf (applyContrast 8 0xFFBF00) ∧
    greenOf (applyContrast 3 0xFFBF00) ≤ greenOf (applyContrast 8 0xFFBF00) ∧
    blueOf (applyContrast 3 0xFFBF00) ≤ blueOf (applyContrast 8 0xFFBF00) :=
  applyContrast_mono 0xFFBF00 3 8 (by decide) (by decide)

theorem smoothChannel_eq (ch remain : Nat) (hch : ch < 256) (hr : remain ≤ 15) :
    smoothChannel ch (remain : Int) = ch * remain / 16 := by
  have hp : ch * remain ≤ 255 * 15 := Nat.mul_le_mul (by omega) hr
  unfold smoothChannel
  have hcast : ((ch : Int) * (remain : Int)) = ((ch * remain : Nat) : Int) := by push_cast; rfl
  rw [hcast, wrapInt16_of_small _ (by omega) (by omega)]
  have h16 : (16 : Int) = ((16 : Nat) : Int) := rfl
  rw [h16, ← Int.ofNat_tdiv]
  apply toUInt8_natCast
  omega

theorem displayMeterFull_contrast (s : State) (onLeds : Int) :
    (displayMeterFull s onLeds).contrast = s.contrast := by
  unfold displayMeterFull
  generalize List.range (onLeds - 1).toNat = l
  induction l generalizing s with
  | nil => rfl
  | cons i l ih => simp only [List.foldl_cons]; rw [ih]; rfl

theorem displayMeterFull_pixels (s : State) (onLeds : Int) :
    (displayMeterFull s onLeds).pixels =
      (List.range (onLeds - 1).toNat).foldl
        (fun px i => px.set i (applyContrast s.contrast (meterColors.getD i 0))) s.pixels := by
  unfold displayMeterFull
  generalize List.range (onLeds - 1).toNat = l
  induction l generalizing s with
  | nil => rfl
  | cons i l ih => simp only [List.foldl_cons]; rw [ih]; rfl

/-- The pixel buffer and committed frame of `displayMeter` for a value in
0..511, with the machine arithmetic resolved. -/
theorem displayMeter_shown (s : State) (v : Nat) (hv : v ≤ 511) :
    (displayMeter s (v : Int)).shown =
      ((List.range (v / 64)).foldl
        (fun px i => px.set i (applyContrast s.contrast (meterColors.getD i 0)))
        (List.replicate 8 0)).set (v / 64)
        (applyContrast s.contrast
          (Color (redOf (meterColors.getD (v / 64) 0) * (v % 64 * 16 / 64) / 16)
            (greenOf (meterColors.getD (v / 64) 0) * (v % 64 * 16 / 64) / 16)
            (blueOf (meterColors.getD (v / 64) 0) * (v % 64 * 16 / 64) / 16))) := by
  have hseg : Int.tdiv (METER_RANGE : Int) (LED_COUNT : Int) = ((64 : Nat) : Int) := by decide
  have hon : wrapInt16 (Int.tdiv (v : Int) ((64 : Nat) : Int) + 1) = ((v / 64 + 1 : Nat) : Int) := by
    rw [← Int.ofNat_tdiv, wrapInt16_of_small _ (by omega) (by omega)]
    push_cast; rfl
  have hrem : Int.tdiv (wrapInt16 (Int.tmod (v : Int) ((64 : Nat) : Int) * 16)) ((64 : Nat) : Int)
      = ((v % 64 * 16 / 64 : Nat) : Int) := by
    rw [← Int.ofNat_tmod, wrapInt16_of_small _ (by omega) (by omega)]
    have : ((v % 64 : Nat) : Int) * 16 = ((v % 64 * 16 : Nat) : Int) := by push_cast; rfl
    rw [this, ← Int.ofNat_tdiv]
  have hcon : constrain ((v / 64 + 1 : Nat) : Int) 0 (LED_COUNT : Int) = ((v / 64 + 1 : Nat) : Int) := by
    unfold constrain
    have h1 : ¬ (((v / 64 + 1 : Nat) : Int) < 0) := by omega
    have h2 : ¬ (((v / 64 + 1 : Nat) : Int) > (LED_COUNT : Int)) := by
      show ¬ (((v / 64 + 1 : Nat) : Int) > 8)
      omega
    rw [if_neg h1, if_neg h2]
  have hpos : ((v / 64 + 1 : Nat) : Int) > 0 := by omega
  have htn : (((v / 64 + 1 : Nat) : Int) - 1).toNat = v / 64 := by omega
  have hr15 : v % 64 * 16 / 64 ≤ 15 := by omega
  unfold displayMeter
  simp only [hseg, hon, hrem, hcon, if_pos hpos, htn, stripShow, stripSetPixelColor,
    displayMeterFull_contrast, displayMeterFull_pixels, stripClear,
    smoothChannel_eq _ _ (redOf_lt _) hr15, smoothChannel_eq _ _ (greenOf_lt _) hr15,
    smoothChannel_eq _ _ (blueOf_lt _) hr15]

theorem foldl_set_length (f : Nat → Nat) (l : List Nat) (px : List Nat) :
    (l.foldl (fun px j => px.set j (f j)) px).length = px.length := by
  induction l generalizing px with
  | nil => rfl
  | cons j l ih => simp only [List.foldl_cons]; rw [ih, List.length_set]

/-- Pixel `i` after the writes `px[j] = f j` for `j = 0, ..., n - 1`. -/
theorem foldl_set_getElem? (f : Nat → Nat) (n : Nat) (px : List Nat) (i : Nat) :
    ((List.range n).foldl (fun px j => px.set j (f j)) px)[i]? =
      if i < n ∧ i < px.length then some (f i) else px[i]? := by
  induction n with
  | zero => simp
  | succ n ih =>
    rw [List.range_succ, List.foldl_append]
    simp only [List.foldl_cons, List.foldl_nil]
    rw [List.getElem?_set, foldl_set_length, ih]
    by_cases hin : n = i
    · subst hin
      by_cases hl : n < px.length
      · simp [hl]
      · have : px[n]? = none := List.getElem?_eq_none (by omega)
        simp [hl, this]
    · rw [if_neg hin]
      by_cases hl : i < px.length
      · by_cases h2 : i < n
        · have : i < n + 1 := by omega
          simp [hl, h2, this]
        · have : ¬ i < n + 1 := by omega
          simp [h2, this]
      · simp [hl]

/-- C3: for every value `v` in 0..511 and every contrast level, with
`onCount = v / 64 + 1` and `remain = ((v mod 64) * 16) / 64`, the frame committed
by `displayMeter` has 8 pixels; every LED `i < onCount - 1` is
`applyContrast (palette[i])`; LED `onCount - 1` is `applyContrast` of
`palette[onCount - 1]` with each channel replaced by `(channel * remain) / 16`;
every LED `i ≥ onCount` is off; and `1 ≤ onCount ≤ 8`, `0 ≤ remain ≤ 15`. -/
theorem displayMeter_frame (s : State) (v onCount remain : Nat) (hv : v ≤ 511)
    (hon : onCount = v / 64 + 1) (hrem : remain = v % 64 * 16 / 64) :
    1 ≤ onCount ∧ onCount ≤ 8 ∧ remain ≤ 15 ∧
    (displayMeter s (v : Int)).shown.length = 8 ∧
    (∀ i, i < onCount - 1 →
      (displayMeter s (v : Int)).shown[i]? =
        some (applyContrast s.contrast (meterColors.getD i 0))) ∧
    (displayMeter s (v : Int)).shown[onCount - 1]? =
      some (applyContrast s.contrast
        (Color (redOf (meterColors.getD (onCount - 1) 0) * remain / 16)
          (greenOf (meterColors.getD (onCount - 1) 0) * remain / 16)
          (blueOf (meterColors.getD (onCount - 1) 0) * remain / 16))) ∧
    (∀ i, onCount ≤ i → i < 8 → (displayMeter s (v : Int)).shown[i]? = some (Color 0 0 0)) := by
  subst hon hrem
  have hk : v / 64 < 8 := by omega
  rw [displayMeter_shown s v hv]
  simp only [Nat.add_sub_cancel]
  refine ⟨by omega, by omega, by omega, ?_, ?_, ?_, ?_⟩
  · rw [List.length_set, foldl_set_length]; rfl
  · intro i hi
    rw [List.getElem?_set, if_neg (by omega), foldl_set_getElem?, List.length_replicate,
      if_pos ⟨hi, by omega⟩]
  · rw [List.getElem?_set, if_pos rfl, foldl_set_length, List.length_replicate, if_pos hk]
  · intro i hi hi8
    rw [List.getElem?_set, if_neg (by omega), foldl_set_getElem?, if_neg (by omega),
      List.getElem?_replicate, if_pos hi8]
    rfl

theorem displayMeter_frame_witness :
    (displayMeter initialState (200 : Nat)).shown[3]? =
      some (applyContrast initialState.contrast
        (Color (redOf (meterColors.getD (4 - 1) 0) * 2 / 16)
          (greenOf (meterColors.getD (4 - 1) 0) * 2 / 16)
          (blueOf (meterColors.getD (4 - 1) 0) * 2 / 16))) :=
  (displayMeter_frame initialState 200 4 2 (by decide) (by decide) (by decide)).2.2.2.2.2.1

/-- C4, as stated, fails on the code: at the default contrast level 8,
`displayMeter(0)` commits a frame with no lit LED at all (not exactly one), and
`displayMeter(64)` commits a frame whose only lit LED is LED 0 (not exactly
two): at the start of a segment `remain` is 0 and the partial LED is black. -/
theorem displayMeter_segment_start_counterexample :
    (displayMeter initialState 0).shown = [0, 0, 0, 0, 0, 0, 0, 0] ∧
    litCount (displayMeter initialState 0).shown ≠ 1 ∧
    (displayMeter initialState 64).shown = [Color 0 136 0, 0, 0, 0, 0, 0, 0, 0] ∧
    litCount (displayMeter initialState 64).shown ≠ 2 := by
  decide

/-- C4 (amended): at the start of a segment the partial LED is off.  For every
contrast level in 1..15, `displayMeter(0)` commits a frame with all 8 LEDs off,
and `displayMeter(64)` commits a frame with exactly one lit LED: LED 0 at the
full contrast-filtered green, LEDs 1-7 off. -/
theorem displayMeter_segment_start (s : State) (h1 : 1 ≤ s.contrast) (h2 : s.contrast ≤ 15) :
    (displayMeter s 0).shown = [0, 0, 0, 0, 0, 0, 0, 0] ∧
    litCount (displayMeter s 0).shown = 0 ∧
    (displayMeter s 64).shown =
      [applyContrast s.contrast (Color 0 255 0), 0, 0, 0, 0, 0, 0, 0] ∧
    applyContrast s.contrast (Color 0 255 0) ≠ 0 ∧
    litCount (displayMeter s 64).shown = 1 := by
  have e0 := displayMeter_shown s 0 (by decide)
  have e64 := displayMeter_shown s 64 (by decide)
  simp only [Nat.cast_ofNat, Nat.cast_zero] at e0 e64
  rw [e0, e64]
  generalize s.contrast = c at *
  interval_cases c <;> decide

theorem displayMeter_segment_start_witness :
    (displayMeter initialState 64).shown =
      [applyContrast initialState.contrast (Color 0 255 0), 0, 0, 0, 0, 0, 0, 0] :=
  (displayMeter_segment_start initialState (by decide) (by decide)).2.2.1

/-- C5: for every contrast level in 1..15, `displayMeter(511)` commits a frame
in which all 8 LEDs are lit: LEDs 0..6 show `applyContrast` of their palette
colour (4 green, then 3 amber) and LED 7 shows `applyContrast` of red scaled by
15/16, that is of `(239,0,0)`. -/
theorem displayMeter_full_scale (s : State) (h1 : 1 ≤ s.contrast) (h2 : s.contrast ≤ 15) :
    (displayMeter s 511).shown =
      [applyContrast s.contrast (Color 0 255 0), applyContrast s.contrast (Color 0 255 0),
       applyContrast s.contrast (Color 0 255 0), applyContrast s.contrast (Color 0 255 0),
       applyContrast s.contrast (Color 255 191 0), applyContrast s.contrast (Color 255 191 0),
       applyContrast s.contrast (Color 255 191 0), applyContrast s.contrast (Color 239 0 0)] ∧
    (∀ c ∈ (displayMeter s 511).shown, c ≠ 0) ∧
    litCount (displayMeter s 511).shown = 8 := by
  have e := displayMeter_shown s 511 (by decide)
  simp only [Nat.cast_ofNat] at e
  rw [e]
  generalize s.contrast = c at *
  interval_cases c <;> decide

theorem displayMeter_full_scale_witness :
    litCount (displayMeter initialState 511).shown = 8 :=
  (displayMeter_full_scale initialState (by decide) (by decide)).2.2

/-! ## History shift registers -/

theorem pushHistory_eq {α : Type} (h : List α) (hlen : h.length = 8) (v : α) :
    pushHistory h v = v :: h.take 7 := by
  match h, hlen with
  | [_, _, _, _, _, _, _, _], _ => rfl

theorem pushHistory_length {α : Type} (h : List α) (hlen : h.length = 8) (v : α) :
    (pushHistory h v).length = 8 := by
  rw [pushHistory_eq h hlen]
  simp [hlen]

theorem take_cons_take {α : Type} (v : α) (h : List α) (k : Nat) (hk : k ≤ 8) :
    (v :: h.take 7).take k = (v :: h).take k := by
  cases k with
  | zero => rfl
  | succ j =>
    simp only [List.take_succ_cons, List.take_take]
    rw [Nat.min_eq_left (by omega)]

theorem foldl_pushHistory {α : Type} (vs h : List α) (hlen : h.length = 8) :
    vs.foldl pushHistory h = (vs.reverse ++ h).take 8 := by
  induction vs generalizing h with
  | nil => simp [← hlen]
  | cons v vs ih =>
    rw [List.foldl_cons, ih _ (pushHistory_length h hlen v), pushHistory_eq h hlen]
    rw [List.reverse_cons, List.append_assoc, List.singleton_append]
    simp only [List.take_append_eq_append_take]
    rw [take_cons_take v h _ (by omega)]

/-- C7: for an 8-slot history array (of colours or of temperatures), after the
pushes `vs = v1, ..., vN` with `N ≥ 8` the array still has 8 slots and slot `i`
holds `v(N-i)` for every `i` in 0..7; slot 0 is the most recently pushed value,
and after exactly 8 pushes `v1..v8` slot 0 is `v8` and slot 7 is `v1`. -/
theorem history_after_pushes {α : Type} (h vs : List α) (hlen : h.length = 8)
    (hN : 8 ≤ vs.length) :
    (vs.foldl pushHistory h).length = 8 ∧
    (∀ i, i < 8 → (vs.foldl pushHistory h)[i]? = vs[vs.length - 1 - i]?) ∧
    (vs.foldl pushHistory h)[0]? = vs.getLast? ∧
    (∀ v1 v2 v3 v4 v5 v6 v7 v8 : α, vs = [v1, v2, v3, v4, v5, v6, v7, v8] →
      (vs.foldl pushHistory h)[0]? = some v8 ∧ (vs.foldl pushHistory h)[7]? = some v1) := by
  have hslot : ∀ i, i < 8 → (vs.foldl pushHistory h)[i]? = vs[vs.length - 1 - i]? := by
    intro i hi
    rw [foldl_pushHistory vs h hlen, List.getElem?_take_of_lt hi,
      List.getElem?_append_left (by rw [List.length_reverse]; omega),
      List.getElem?_reverse (by omega)]
  refine ⟨?_, hslot, ?_, ?_⟩
  · rw [foldl_pushHistory vs h hlen, List.length_take, List.length_append, List.length_reverse]
    omega
  · rw [hslot 0 (by omega), List.getLast?_eq_getElem?, Nat.sub_zero]
  · intro v1 v2 v3 v4 v5 v6 v7 v8 hvs
    rw [hslot 0 (by omega), hslot 7 (by omega), hvs]
    exact ⟨rfl, rfl⟩

theorem history_after_pushes_witness :
    (([1, 2, 3, 4, 5, 6, 7, 8, 9] : List Nat).foldl pushHistory initialState.colorHistory)[0]? =
      ([1, 2, 3, 4, 5, 6, 7, 8, 9] : List Nat).getLast? :=
  (history_after_pushes initialState.colorHistory [1, 2, 3, 4, 5, 6, 7, 8, 9]
    (by decide) (by decide)).2.2.1

/-! ## Sample aggregators -/

/-- The last ten entries of the zero-initialised buffer contents followed by the
recorded samples `xs`, oldest first. -/
theorem window_snoc (xs : List ColorSample) (x : ColorSample) :
    (List.replicate 10 (⟨0, 0, 0⟩ : ColorSample) ++ (xs ++ [x])).drop (xs ++ [x]).length =
      ((List.replicate 10 (⟨0, 0, 0⟩ : ColorSample) ++ xs).drop xs.length).drop 1 ++ [x] := by
  rw [List.drop_drop, ← List.append_assoc, List.length_append, List.length_singleton,
    List.drop_append_of_le_length (by simp)]

theorem window_length (xs : List ColorSample) :
    ((List.replicate 10 (⟨0, 0, 0⟩ : ColorSample) ++ xs).drop xs.length).length = 10 := by
  rw [List.length_drop, List.length_append, List.length_replicate]
  omega

/-- Overwriting the oldest slot of a buffer whose write index is `i`. -/
theorem ring_set (w : List ColorSample) (hw : w.length = 10) (i : Nat) (hi : i < 10)
    (x : ColorSample) :
    (w.drop (10 - i) ++ w.take (10 - i)).set i x =
      (w.drop 1 ++ [x]).drop (10 - (i + 1) % 10) ++ (w.drop 1 ++ [x]).take (10 - (i + 1) % 10) := by
  match w, hw with
  | [_, _, _, _, _, _, _, _, _, _], _ => interval_cases i <;> rfl

theorem recordColorSamples_snoc (s : State) (xs : List ColorSample) (x : ColorSample) :
    recordColorSamples s (xs ++ [x]) = recordColorSample (recordColorSamples s xs) x.r x.g x.b := by
  unfold recordColorSamples
  rw [List.foldl_append]
  rfl

/-- The contents of the aggregator after recording `xs` into a reset buffer. -/
theorem recordColorSamples_state (s : State) (xs : List ColorSample)
    (hz : s.colorSamples = List.replicate 10 ⟨0, 0, 0⟩) (hi : s.colorSampleIndex = 0) :
    (recordColorSamples s xs).colorSampleIndex = xs.length % 10 ∧
    (recordColorSamples s xs).colorSamples =
      ((List.replicate 10 (⟨0, 0, 0⟩ : ColorSample) ++ xs).drop xs.length).drop
          (10 - xs.length % 10) ++
        ((List.replicate 10 (⟨0, 0, 0⟩ : ColorSample) ++ xs).drop xs.length).take
          (10 - xs.length % 10) := by
  induction xs using List.reverseRecOn with
  | nil => exact ⟨hi, hz⟩
  | append_singleton xs x ih =>
    obtain ⟨ih1, ih2⟩ := ih
    rw [recordColorSamples_snoc]
    refine ⟨?_, ?_⟩
    · show ((recordColorSamples s xs).colorSampleIndex + 1) % 10 = _
      rw [ih1, List.length_append, List.length_singleton]
      omega
    · show (recordColorSamples s xs).colorSamples.set (recordColorSamples s xs).colorSampleIndex
          ⟨x.r, x.g, x.b⟩ = _
      rw [ih1, ih2, ring_set _ (window_length xs) _ (Nat.mod_lt _ (by decide)), window_snoc]
      have : (xs ++ [x]).length % 10 = (xs.length % 10 + 1) % 10 := by
        rw [List.length_append, List.length_singleton]; omega
      rw [this]

/-- The 32-bit accumulation of ten 16-bit values never overflows. -/
theorem sumColorChannel_eq (buf : List ColorSample) (ch : ColorSample → Nat)
    (hlen : buf.length = 10) (hb : ∀ y ∈ buf, ch y < 65536) :
    sumColorChannel buf ch = (buf.map ch).sum := by
  match buf, hlen with
  | [a0, a1, a2, a3, a4, a5, a6, a7, a8, a9], _ =>
    have h0 := hb a0 (by simp)
    have h1 := hb a1 (by simp)
    have h2 := hb a2 (by simp)
    have h3 := hb a3 (by simp)
    have h4 := hb a4 (by simp)
    have h5 := hb a5 (by simp)
    have h6 := hb a6 (by simp)
    have h7 := hb a7 (by simp)
    have h8 := hb a8 (by simp)
    have h9 := hb a9 (by simp)
    simp only [sumColorChannel, List.range, List.range.loop, List.foldl_cons, List.foldl_nil,
      List.getD_cons_zero, List.getD_cons_succ, List.map_cons, List.map_nil, List.sum_cons,
      List.sum_nil]
    omega

theorem sum_rotated (w : List ColorSample) (ch : ColorSample → Nat) (k : Nat) :
    ((w.drop k ++ w.take k).map ch).sum = (w.map ch).sum := by
  conv_rhs => rw [← List.take_append_drop k w]
  simp only [List.map_append, List.sum_append]
  omega

theorem sum_window (xs : List ColorSample) (ch : ColorSample → Nat)
    (h0 : ch ⟨0, 0, 0⟩ = 0) :
    (((List.replicate 10 (⟨0, 0, 0⟩ : ColorSample) ++ xs).drop xs.length).map ch).sum =
      ((xs.drop (xs.length - 10)).map ch).sum := by
  rw [List.drop_append_eq_append_drop, List.length_replicate, List.drop_replicate,
    List.map_append, List.sum_append, List.map_replicate, h0, List.sum_replicate]
  simp

theorem mem_window (xs : List ColorSample) (y : ColorSample)
    (hy : y ∈ (List.replicate 10 (⟨0, 0, 0⟩ : ColorSample) ++ xs).drop xs.length) :
    y = ⟨0, 0, 0⟩ ∨ y ∈ xs := by
  have := List.mem_of_mem_drop hy
  rw [List.mem_append] at this
  rcases this with h | h
  · exact Or.inl (List.eq_of_mem_replicate h)
  · exact Or.inr h

theorem mem_rotated (w : List ColorSample) (k : Nat) (y : ColorSample)
    (hy : y ∈ w.drop k ++ w.take k) : y ∈ w := by
  rw [List.mem_append] at hy
  rcases hy with h | h
  · exact List.mem_of_mem_drop h
  · exact List.mem_of_mem_take h

theorem sumColorChannel_recorded (s : State) (xs : List ColorSample) (ch : ColorSample → Nat)
    (hz : s.colorSamples = List.replicate 10 ⟨0, 0, 0⟩) (hi : s.colorSampleIndex = 0)
    (h0 : ch ⟨0, 0, 0⟩ = 0) (h16 : ∀ x ∈ xs, ch x < 65536) :
    sumColorChannel (recordColorSamples s xs).colorSamples ch =
      ((xs.drop (xs.length - 10)).map ch).sum := by
  obtain ⟨_, hbuf⟩ := recordColorSamples_state s xs hz hi
  rw [hbuf, sumColorChannel_eq, sum_rotated, sum_window xs ch h0]
  · rw [List.length_append, List.length_drop, List.length_take, window_length]
    omega
  · intro y hy
    rcases mem_window xs y (mem_rotated _ _ y hy) with h | h
    · rw [h, h0]; decide
    · exact h16 y h

/-- C6: starting from a reset colour aggregator (all 10 slots zero, write index
0), after recording any sequence `xs` of 16-bit samples the per-channel mean
computed at display time is `S / 10` (integer division), where `S` is the sum
of that channel over the last `min n 10` recorded samples, `n = xs.length`:
overwritten samples are excluded and unfilled slots count as zeros. -/
theorem colorMean_recent (s : State) (xs : List ColorSample)
    (hz : s.colorSamples = List.replicate 10 ⟨0, 0, 0⟩) (hi : s.colorSampleIndex = 0)
    (h16 : ∀ x ∈ xs, x.r < 65536 ∧ x.g < 65536 ∧ x.b < 65536) :
    colorMean (recordColorSamples s xs) =
      (((xs.drop (xs.length - 10)).map ColorSample.r).sum / 10,
       ((xs.drop (xs.length - 10)).map ColorSample.g).sum / 10,
       ((xs.drop (xs.length - 10)).map ColorSample.b).sum / 10) ∧
    (xs.drop (xs.length - 10)).length = min xs.length 10 := by
  refine ⟨?_, ?_⟩
  · unfold colorMean
    rw [sumColorChannel_recorded s xs ColorSample.r hz hi rfl (fun x hx => (h16 x hx).1),
      sumColorChannel_recorded s xs ColorSample.g hz hi rfl (fun x hx => (h16 x hx).2.1),
      sumColorChannel_recorded s xs ColorSample.b hz hi rfl (fun x hx => (h16 x hx).2.2)]
  · rw [List.length_drop]
    omega

theorem colorMean_recent_witness :
    colorMean (recordColorSamples initialState
      [⟨1, 2, 3⟩, ⟨10, 20, 30⟩, ⟨10, 20, 30⟩, ⟨10, 20, 30⟩, ⟨10, 20, 30⟩, ⟨10, 20, 30⟩,
       ⟨10, 20, 30⟩, ⟨10, 20, 30⟩, ⟨10, 20, 30⟩, ⟨10, 20, 30⟩, ⟨65535, 0, 7⟩]) =
      (6562, 18, 27) :=
  (colorMean_recent initialState
    [⟨1, 2, 3⟩, ⟨10, 20, 30⟩, ⟨10, 20, 30⟩, ⟨10, 20, 30⟩, ⟨10, 20, 30⟩, ⟨10, 20, 30⟩,
     ⟨10, 20, 30⟩, ⟨10, 20, 30⟩, ⟨10, 20, 30⟩, ⟨10, 20, 30⟩, ⟨65535, 0, 7⟩]
    rfl rfl (by decide)).1

/-! ## Serial command handler -/

/-- C8: in every state reachable from the initial state by serial input bytes
the contrast level is at most 15; and in every state with a contrast level in
0..15, whatever the operation mode, `'+'` raises it by exactly 1 when it is below
15 and leaves it at 15 otherwise, `'-'` lowers it by exactly 1 when it is above
0 and leaves it at 0 otherwise, no other byte changes it, and the level stays in
0..15. -/
theorem contrast_clamped :
    (∀ inputs : List Char, (afterSerial inputs).contrast ≤ 15) ∧
    (∀ s : State, s.contrast ≤ 15 →
      (handleSerialInput s '+').contrast = (if s.contrast < 15 then s.contrast + 1 else 15) ∧
      (handleSerialInput s '-').contrast = (if 0 < s.contrast then s.contrast - 1 else 0) ∧
      (∀ input : Char, input ≠ '+' → input ≠ '-' →
        (handleSerialInput s input).contrast = s.contrast) ∧
      (∀ input : Char, (handleSerialInput s input).contrast ≤ 15)) := by
  have hstep : ∀ s : State, s.contrast ≤ 15 →
      (handleSerialInput s '+').contrast = (if s.contrast < 15 then s.contrast + 1 else 15) ∧
      (handleSerialInput s '-').contrast = (if 0 < s.contrast then s.contrast - 1 else 0) ∧
      (∀ input : Char, input ≠ '+' → input ≠ '-' →
        (handleSerialInput s input).contrast = s.contrast) ∧
      (∀ input : Char, (handleSerialInput s input).contrast ≤ 15) := by
    intro s hs
    have hplus : (handleSerialInput s '+').contrast
        = (if s.contrast < 15 then s.contrast + 1 else 15) := by
      show (if s.contrast < 15 then _ else s).contrast = _
      split
      · rfl
      · omega
    have hminus : (handleSerialInput s '-').contrast
        = (if 0 < s.contrast then s.contrast - 1 else 0) := by
      show (if s.contrast > 0 then _ else s).contrast = _
      split
      · rfl
      · omega
    have hother : ∀ input : Char, input ≠ '+' → input ≠ '-' →
        (handleSerialInput s input).contrast = s.contrast := by
      intro input h1 h2
      unfold handleSerialInput
      split <;> first | rfl | contradiction
    refine ⟨hplus, hminus, hother, ?_⟩
    intro input
    by_cases h1 : input = '+'
    · rw [h1, hplus]; split <;> omega
    · by_cases h2 : input = '-'
      · rw [h2, hminus]; split <;> omega
      · rw [hother input h1 h2]; exact hs
  refine ⟨?_, hstep⟩
  intro inputs
  induction inputs using List.reverseRecOn with
  | nil => decide
  | append_singleton inputs input ih =>
    unfold afterSerial at ih ⊢
    rw [List.foldl_append]
    exact (hstep _ ih).2.2.2 input

theorem contrast_clamped_witness :
    (handleSerialInput (afterSerial ['C', '+', '+']) '+').contrast =
      (if (afterSerial ['C', '+', '+']).contrast < 15
        then (afterSerial ['C', '+', '+']).contrast + 1 else 15) :=
  (contrast_clamped.2 (afterSerial ['C', '+', '+']) (by decide)).1

/-- C9: whatever the current state, `'L'`/`'l'` sets the mode to light level,
`'C'`/`'c'` to RGB colour, `'T'`/`'t'` to temperature; every other byte leaves
the mode unchanged; every byte other than `L l C c T t + -` leaves the device
state (mode, contrast, sample buffers and indices, history buffers, auxiliary
output, and also the timestamps and the strip) unchanged, the serial output
apart; and a byte that is not `? h H` either leaves the whole state unchanged. -/
theorem handleSerialInput_mode (s : State) (input : Char) :
    (input = 'L' ∨ input = 'l' →
      (handleSerialInput s input).currentMode = OperationMode.MODE_LIGHT_LEVEL) ∧
    (input = 'C' ∨ input = 'c' →
      (handleSerialInput s input).currentMode = OperationMode.MODE_RGB_COLOR) ∧
    (input = 'T' ∨ input = 't' →
      (handleSerialInput s input).currentMode = OperationMode.MODE_TEMPERATURE) ∧
    (input ∉ ['L', 'l', 'C', 'c', 'T', 't'] →
      (handleSerialInput s input).currentMode = s.currentMode) ∧
    (input ∉ ['L', 'l', 'C', 'c', 'T', 't', '+', '-'] →
      { handleSerialInput s input with serialOut := s.serialOut } = s) ∧
    (input ∉ ['L', 'l', 'C', 'c', 'T', 't', '+', '-', '?', 'h', 'H'] →
      handleSerialInput s input = s) := by
  refine ⟨?_, ?_, ?_, ?_, ?_, ?_⟩
  · rintro (h | h) <;> subst h <;> rfl
  · rintro (h | h) <;> subst h <;> rfl
  · rintro (h | h) <;> subst h <;> rfl
  · intro h
    simp only [List.mem_cons, List.mem_singleton, List.not_mem_nil, or_false, not_or] at h
    unfold handleSerialInput
    split <;> first | rfl | (split <;> rfl) | (exfalso; simp_all)
  · intro h
    simp only [List.mem_cons, List.mem_singleton, List.not_mem_nil, or_false, not_or] at h
    unfold handleSerialInput
    split <;> first | rfl | (exfalso; simp_all)
  · intro h
    simp only [List.mem_cons, List.mem_singleton, List.not_mem_nil, or_false, not_or] at h
    unfold handleSerialInput
    split <;> first | rfl | (exfalso; simp_all)

theorem handleSerialInput_mode_witness :
    handleSerialInput (afterSerial ['T', '+']) 'x' = afterSerial ['T', '+'] :=
  (handleSerialInput_mode (afterSerial ['T', '+']) 'x').2.2.2.2.2 (by decide)

/-- C10: after `'C'`/`'c'` every colour sample slot is zero, the colour write
index is 0 and the auxiliary illumination output is on; after `'T'`/`'t'` every
temperature sample slot is zero, the temperature write index is 0 and the
auxiliary illumination output is off; every other byte leaves all sample slots
and both write indices unchanged. -/
theorem handleSerialInput_reset (s : State) (input : Char) :
    (input = 'C' ∨ input = 'c' →
      (handleSerialInput s input).colorSamples = List.replicate 10 ⟨0, 0, 0⟩ ∧
      (handleSerialInput s input).colorSampleIndex = 0 ∧
      (handleSerialInput s input).tcsLedPin = true) ∧
    (input = 'T' ∨ input = 't' →
      (handleSerialInput s input).tempSamples = List.replicate 10 0 ∧
      (handleSerialInput s input).tempSampleIndex = 0 ∧
      (handleSerialInput s input).tcsLedPin = false) ∧
    (input ∉ ['C', 'c', 'T', 't'] →
      (handleSerialInput s input).colorSamples = s.colorSamples ∧
      (handleSerialInput s input).colorSampleIndex = s.colorSampleIndex ∧
      (handleSerialInput s input).tempSamples = s.tempSamples ∧
      (handleSerialInput s input).tempSampleIndex = s.tempSampleIndex) := by
  refine ⟨?_, ?_, ?_⟩
  · rintro (h | h) <;> subst h <;> exact ⟨rfl, rfl, rfl⟩
  · rintro (h | h) <;> subst h <;> exact ⟨rfl, rfl, rfl⟩
  · intro h
    simp only [List.mem_cons, List.mem_singleton, List.not_mem_nil, or_false, not_or] at h
    unfold handleSerialInput
    split <;> first
      | exact ⟨rfl, rfl, rfl, rfl⟩
      | (split <;> exact ⟨rfl, rfl, rfl, rfl⟩)
      | (exfalso; simp_all)

theorem handleSerialInput_reset_witness :
    (handleSerialInput (recordColorSamples (afterSerial ['C']) [⟨5, 6, 7⟩]) 'c').colorSamples =
      List.replicate 10 ⟨0, 0, 0⟩ ∧
    (handleSerialInput (recordColorSamples (afterSerial ['C']) [⟨5, 6, 7⟩]) 'c').colorSampleIndex
      = 0 ∧
    (handleSerialInput (recordColorSamples (afterSerial ['C']) [⟨5, 6, 7⟩]) 'c').tcsLedPin = true :=
  (handleSerialInput_reset (recordColorSamples (afterSerial ['C']) [⟨5, 6, 7⟩]) 'c').1 (Or.inr rfl)

/-- C11: for every input byte and every state, `handleSerialInput` leaves both
history arrays unchanged; `'C'`/`'c'` leaves the temperature aggregator
unchanged and `'T'`/`'t'` leaves the colour aggregator unchanged; `'L'`/`'l'`
changes no variable other than the mode (it prints one line on the serial
port), so the auxiliary illumination output keeps its previous value. -/
theorem handleSerialInput_frame (s : State) (input : Char) :
    (handleSerialInput s input).colorHistory = s.colorHistory ∧
    (handleSerialInput s input).tempHistory = s.tempHistory ∧
    (input = 'C' ∨ input = 'c' →
      (handleSerialInput s input).tempSamples = s.tempSamples ∧
      (handleSerialInput s input).tempSampleIndex = s.tempSampleIndex) ∧
    (input = 'T' ∨ input = 't' →
      (handleSerialInput s input).colorSamples = s.colorSamples ∧
      (handleSerialInput s input).colorSampleIndex = s.colorSampleIndex) ∧
    (input = 'L' ∨ input = 'l' →
      { handleSerialInput s input with
        currentMode := s.currentMode, serialOut := s.serialOut } = s ∧
      (handleSerialInput s input).tcsLedPin = s.tcsLedPin) := by
  refine ⟨?_, ?_, ?_, ?_, ?_⟩
  · unfold handleSerialInput
    split <;> first | rfl | (split <;> rfl)
  · unfold handleSerialInput
    split <;> first | rfl | (split <;> rfl)
  · rintro (h | h) <;> subst h <;> exact ⟨rfl, rfl⟩
  · rintro (h | h) <;> subst h <;> exact ⟨rfl, rfl⟩
  · rintro (h | h) <;> subst h <;> exact ⟨rfl, rfl⟩

theorem handleSerialInput_frame_witness :
    { handleSerialInput (afterSerial ['C']) 'l' with
      currentMode := (afterSerial ['C']).currentMode,
      serialOut := (afterSerial ['C']).serialOut } = afterSerial ['C'] ∧
    (handleSerialInput (afterSerial ['C']) 'l').tcsLedPin = (afterSerial ['C']).tcsLedPin :=
  (handleSerialInput_frame (afterSerial ['C']) 'l').2.2.2.2 (Or.inr rfl)

theorem constrain_below {α : Type} [LinearOrder α] (amt low high : α) (h : amt < low) :
    constrain amt low high = low := by
  unfold constrain
  rw [if_pos h]

theorem constrain_above {α : Type} [LinearOrder α] (amt low high : α) (hlh : low ≤ high)
    (h : high < amt) : constrain amt low high = high := by
  unfold constrain
  rw [if_neg (not_lt.mpr (le_trans hlh (le_of_lt h))), if_pos h]

theorem constrain_between {α : Type} [LinearOrder α] (amt low high : α) (h1 : low ≤ amt)
    (h2 : amt ≤ high) : constrain amt low high = amt := by
  unfold constrain
  rw [if_neg (not_lt.mpr h1), if_neg (not_lt.mpr h2)]

/-- C12: with the arithmetic over exact rationals and the `uint8_t` casts as
truncation, `temperatureToIronColor` returns `(0,0,0)` at 0 °C, `(128,0,255)` at
25 °C, `(255,0,0)` at 50 °C, `(255,255,0)` at 75 °C and `(255,255,255)` at
100 °C; an input below 0 °C maps as 0 °C and an input above 100 °C maps as
100 °C. -/
theorem temperatureToIronColor_stops :
    temperatureToIronColor 0 = Color 0 0 0 ∧
    temperatureToIronColor 25 = Color 128 0 255 ∧
    temperatureToIronColor 50 = Color 255 0 0 ∧
    temperatureToIronColor 75 = Color 255 255 0 ∧
    temperatureToIronColor 100 = Color 255 255 255 ∧
    (∀ temp : ℚ, temp < 0 → temperatureToIronColor temp = temperatureToIronColor 0) ∧
    (∀ temp : ℚ, 100 < temp → temperatureToIronColor temp = temperatureToIronColor 100) := by
  refine ⟨?_, ?_, ?_, ?_, ?_, ?_, ?_⟩
  · have e : constrain (0 : ℚ) ((TEMP_MIN_C : Nat) : ℚ) ((TEMP_MAX_C : Nat) : ℚ) = 0 := by
      norm_num [constrain]
    unfold temperatureToIronColor
    rw [e]
    norm_num [truncToInt, toUInt8]
  · have e : constrain (25 : ℚ) ((TEMP_MIN_C : Nat) : ℚ) ((TEMP_MAX_C : Nat) : ℚ) = 25 := by
      norm_num [constrain]
    unfold temperatureToIronColor
    rw [e]
    norm_num [truncToInt, toUInt8]
    rfl
  · have e : constrain (50 : ℚ) ((TEMP_MIN_C : Nat) : ℚ) ((TEMP_MAX_C : Nat) : ℚ) = 50 := by
      norm_num [constrain]
    unfold temperatureToIronColor
    rw [e]
    norm_num [truncToInt, toUInt8]
  · have e : constrain (75 : ℚ) ((TEMP_MIN_C : Nat) : ℚ) ((TEMP_MAX_C : Nat) : ℚ) = 75 := by
      norm_num [constrain]
    unfold temperatureToIronColor
    rw [e]
    norm_num [truncToInt, toUInt8]
  · have e : constrain (100 : ℚ) ((TEMP_MIN_C : Nat) : ℚ) ((TEMP_MAX_C : Nat) : ℚ) = 100 := by
      norm_num [constrain]
    unfold temperatureToIronColor
    rw [e]
    norm_num [truncToInt, toUInt8]
    rfl
  · intro temp h
    have e1 : constrain temp ((TEMP_MIN_C : Nat) : ℚ) ((TEMP_MAX_C : Nat) : ℚ) = 0 := by
      rw [constrain_below _ _ _ (by simpa using h)]; simp
    have e2 : constrain (0 : ℚ) ((TEMP_MIN_C : Nat) : ℚ) ((TEMP_MAX_C : Nat) : ℚ) = 0 := by
      rw [constrain_between _ _ _ (by simp) (by simp)]
    unfold temperatureToIronColor
    simp only [e1, e2]
  · intro temp h
    have e1 : constrain temp ((TEMP_MIN_C : Nat) : ℚ) ((TEMP_MAX_C : Nat) : ℚ) = 100 := by
      rw [constrain_above _ _ _ (by simp) (by simpa using h)]; simp
    have e2 : constrain (100 : ℚ) ((TEMP_MIN_C : Nat) : ℚ) ((TEMP_MAX_C : Nat) : ℚ) = 100 := by
      rw [constrain_between _ _ _ (by simp) (by simp)]
    unfold temperatureToIronColor
    simp only [e1, e2]

theorem temperatureToIronColor_stops_witness :
    temperatureToIronColor (-5) = temperatureToIronColor 0 ∧
    temperatureToIronColor 180 = temperatureToIronColor 100 :=
  ⟨temperatureToIronColor_stops.2.2.2.2.2.1 (-5) (by norm_num),
   temperatureToIronColor_stops.2.2.2.2.2.2 180 (by norm_num)⟩

/-! ## Colour and temperature modes -/

/-- The function `runRGBColorMode` is its sampling block followed by its display
block. -/
theorem runRGBColorMode_eq (s : State) (currentTime r g b : Nat) :
    runRGBColorMode s currentTime r g b =
      displayColorTick (sampleColorTick s currentTime r g b) currentTime := rfl

/-- The function `runTemperatureMode` is its sampling block followed by its
display block. -/
theorem runTemperatureMode_eq (s : State) (currentTime : Nat) (temp : ℚ) :
    runTemperatureMode s currentTime temp =
      displayTempTick (sampleTempTick s currentTime temp) currentTime := rfl

/-- The colour-ratio mapper in terms of its channel and brightness parts. -/
theorem ratioColor_eq (avgR avgG avgB : Nat) :
    ratioColor avgR avgG avgB =
      if (avgR + avgG + avgB) % 2 ^ 32 > 0 then
        (toUInt8 (truncToInt ((ratioChannel avgR (((avgR + avgG + avgB) % 2 ^ 32 : Nat) : ℚ) : ℚ) *
            ratioBrightness (((avgR + avgG + avgB) % 2 ^ 32 : Nat) : ℚ))),
         toUInt8 (truncToInt ((ratioChannel avgG (((avgR + avgG + avgB) % 2 ^ 32 : Nat) : ℚ) : ℚ) *
            ratioBrightness (((avgR + avgG + avgB) % 2 ^ 32 : Nat) : ℚ))),
         toUInt8 (truncToInt ((ratioChannel avgB (((avgR + avgG + avgB) % 2 ^ 32 : Nat) : ℚ) : ℚ) *
            ratioBrightness (((avgR + avgG + avgB) % 2 ^ 32 : Nat) : ℚ))))
      else (0, 0, 0) := rfl

theorem displayColorHistory_colorHistory (s : State) :
    (displayColorHistory s).colorHistory = s.colorHistory := by
  unfold displayColorHistory
  generalize List.range LED_COUNT = l
  induction l generalizing s with
  | nil => rfl
  | cons i l ih =>
    simp only [List.foldl_cons] at ih ⊢
    rw [ih]
    rfl

/-- The colour history after a display tick that is due. -/
theorem displayColorTick_history (s : State) (currentTime : Nat)
    (hlen : s.colorHistory.length = 8)
    (hdue : elapsed currentTime s.lastDisplay ≥ DISPLAY_INTERVAL) :
    (displayColorTick s currentTime).colorHistory =
      Color (ratioColor (colorMean s).1 (colorMean s).2.1 (colorMean s).2.2).1
          (ratioColor (colorMean s).1 (colorMean s).2.1 (colorMean s).2.2).2.1
          (ratioColor (colorMean s).1 (colorMean s).2.1 (colorMean s).2.2).2.2
        :: s.colorHistory.take 7 := by
  unfold displayColorTick
  rw [if_pos hdue]
  simp only [displayColorHistory_colorHistory]
  rw [pushHistory_eq _ hlen]
  rfl

theorem sampleColorTick_frame (s : State) (currentTime r g b : Nat) :
    (sampleColorTick s currentTime r g b).colorHistory = s.colorHistory ∧
    (sampleColorTick s currentTime r g b).lastDisplay = s.lastDisplay ∧
    (sampleColorTick s currentTime r g b).contrast = s.contrast ∧
    (sampleColorTick s currentTime r g b).pixels = s.pixels := by
  unfold sampleColorTick
  split <;> exact ⟨rfl, rfl, rfl, rfl⟩

theorem ratioChannel_example : ratioChannel 100 300 = 85 := by
  norm_num [ratioChannel, constrain, truncToInt, toUInt8]
  rfl

theorem ratioBrightness_example : ratioBrightness 300 = 1 / 10 := by
  norm_num [ratioBrightness, constrain]

theorem ratioColor_example : ratioColor 100 100 100 = (8, 8, 8) := by
  rw [ratioColor_eq]
  norm_num [ratioChannel_example, ratioBrightness_example, truncToInt, toUInt8]
  rfl

theorem colorMean_congr (s s' : State) (h : s.colorSamples = s'.colorSamples) :
    colorMean s = colorMean s' := by
  unfold colorMean
  rw [h]

/-- C13: with the arithmetic over exact rationals and the `uint8_t` casts as
truncation, the colour-ratio mapper of `runRGBColorMode` gives black when the
mean channels satisfy `R + G + B = 0`, and black is then the colour pushed into
history slot 0; when all 10 samples are `(100,100,100)` the mean is
`(100,100,100)`, the normalised ratio colour is `(85,85,85)`, the brightness
scalar is `clamp(300/30000, 0.1, 1.0) = 0.1`, and the colour pushed into history
slot 0 is `(8,8,8)`. -/
theorem ratioColor_cases :
    (∀ avgR avgG avgB : Nat, avgR + avgG + avgB = 0 → ratioColor avgR avgG avgB = (0, 0, 0)) ∧
    (∀ (s : State) (currentTime r g b : Nat), s.colorHistory.length = 8 →
      elapsed currentTime s.lastDisplay ≥ DISPLAY_INTERVAL →
      (colorMean (sampleColorTick s currentTime r g b)).1 +
        (colorMean (sampleColorTick s currentTime r g b)).2.1 +
        (colorMean (sampleColorTick s currentTime r g b)).2.2 = 0 →
      (runRGBColorMode s currentTime r g b).colorHistory[0]? = some (Color 0 0 0)) ∧
    (∀ (s : State) (currentTime r g b : Nat), s.colorHistory.length = 8 →
      elapsed currentTime s.lastDisplay ≥ DISPLAY_INTERVAL →
      (sampleColorTick s currentTime r g b).colorSamples = List.replicate 10 ⟨100, 100, 100⟩ →
      colorMean (sampleColorTick s currentTime r g b) = (100, 100, 100) ∧
      ratioChannel 100 300 = 85 ∧
      ratioBrightness 300 = 1 / 10 ∧
      ratioColor 100 100 100 = (8, 8, 8) ∧
      (runRGBColorMode s currentTime r g b).colorHistory[0]? = some (Color 8 8 8)) := by
  have hzero : ∀ avgR avgG avgB : Nat, avgR + avgG + avgB = 0 →
      ratioColor avgR avgG avgB = (0, 0, 0) := by
    intro avgR avgG avgB h
    unfold ratioColor
    rw [h]
    rfl
  refine ⟨hzero, ?_, ?_⟩
  · intro s currentTime r g b hlen hdue hsum
    obtain ⟨f1, f2, _, _⟩ := sampleColorTick_frame s currentTime r g b
    rw [runRGBColorMode_eq, displayColorTick_history _ _ (by rw [f1]; exact hlen)
      (by rw [f2]; exact hdue), hzero _ _ _ hsum, List.getElem?_cons_zero]
  · intro s currentTime r g b hlen hdue hs
    obtain ⟨f1, f2, _, _⟩ := sampleColorTick_frame s currentTime r g b
    have hmean : colorMean (sampleColorTick s currentTime r g b) = (100, 100, 100) := by
      unfold colorMean
      rw [hs]
      decide
    refine ⟨hmean, ratioChannel_example, ratioBrightness_example, ratioColor_example, ?_⟩
    rw [runRGBColorMode_eq, displayColorTick_history _ _ (by rw [f1]; exact hlen)
      (by rw [f2]; exact hdue), hmean, ratioColor_example, List.getElem?_cons_zero]

theorem ratioColor_cases_witness :
    (runRGBColorMode
      (recordColorSamples initialState (List.replicate 10 ⟨100, 100, 100⟩))
      1000 100 100 100).colorHistory[0]? = some (Color 8 8 8) :=
  (ratioColor_cases.2.2
    (recordColorSamples initialState (List.replicate 10 ⟨100, 100, 100⟩))
    1000 100 100 100 (by decide) (by decide) (by decide)).2.2.2.2

/-! ## Light level mode -/

theorem constrain_mem {α : Type} [LinearOrder α] (amt low high : α) (h : low ≤ high) :
    low ≤ constrain amt low high ∧ constrain amt low high ≤ high := by
  unfold constrain
  split
  · exact ⟨le_refl _, h⟩
  · split
    · exact ⟨h, le_refl _⟩
    · constructor
      · exact not_lt.mp (by assumption)
      · exact not_lt.mp (by assumption)

theorem constrain_mono {α : Type} [LinearOrder α] (a b low high : α) (hlh : low ≤ high)
    (hab : a ≤ b) : constrain a low high ≤ constrain b low high := by
  unfold constrain
  by_cases ha : a < low
  · rw [if_pos ha]
    by_cases hb : b < low
    · rw [if_pos hb]
    · rw [if_neg hb]
      by_cases hb2 : b > high
      · rw [if_pos hb2]; exact hlh
      · rw [if_neg hb2]; exact not_lt.mp hb
  · rw [if_neg ha]
    have hb : ¬ b < low := fun h => ha (lt_of_le_of_lt hab h)
    rw [if_neg hb]
    by_cases ha2 : a > high
    · rw [if_pos ha2, if_pos (lt_of_lt_of_le ha2 hab)]
    · rw [if_neg ha2]
      by_cases hb2 : b > high
      · rw [if_pos hb2]; exact not_lt.mp ha2
      · rw [if_neg hb2]; exact hab

theorem logb_max_pos : 0 < Real.logb 10 65536 :=
  Real.logb_pos (by norm_num) (by norm_num)

/-- The meter value of a reading inside the range 1..65536. -/
theorem meterValueOfLux_eq (lux : ℝ) (h1 : 1 ≤ lux) (h2 : lux ≤ 65536) :
    meterValueOfLux lux =
      constrain ⌊Real.logb 10 lux / Real.logb 10 65536 * 512⌋ 0 511 := by
  have c1 : ((LIGHT_MIN_LUX : Nat) : ℝ) = 1 := by norm_num
  have c2 : ((LIGHT_MAX_LUX : Nat) : ℝ) = 65536 := by norm_num
  have c3 : ((METER_RANGE : Nat) : ℝ) = 512 := by norm_num
  have c4 : ((METER_RANGE : Nat) : Int) - 1 = 511 := by norm_num
  have hpos : 0 ≤ Real.logb 10 lux / Real.logb 10 65536 * 512 :=
    mul_nonneg (div_nonneg (Real.logb_nonneg (by norm_num) h1) (le_of_lt logb_max_pos))
      (by norm_num)
  unfold meterValueOfLux truncRealToInt
  simp only [c1, c2, c3, c4, constrain_between lux 1 65536 h1 h2, Real.logb_one, sub_zero]
  rw [if_pos hpos]

theorem meterValueOfLux_min : meterValueOfLux 1 = 0 := by
  rw [meterValueOfLux_eq 1 (le_refl _) (by norm_num), Real.logb_one]
  norm_num [constrain]

theorem meterValueOfLux_max : meterValueOfLux 65536 = 511 := by
  rw [meterValueOfLux_eq 65536 (by norm_num) (le_refl _),
    div_self (ne_of_gt logb_max_pos)]
  norm_num [constrain]

/-- C14: with `log10` the exact real logarithm, the logarithmic meter mapper of
`runLightLevelMode` satisfies `map(1) = 0` and `map(65536) = 511`, and its
output lies in `[0, 511]` for every non-negative lux input. -/
theorem meterValueOfLux_range :
    meterValueOfLux 1 = 0 ∧ meterValueOfLux 65536 = 511 ∧
    (∀ lux : ℝ, 0 ≤ lux → 0 ≤ meterValueOfLux lux ∧ meterValueOfLux lux ≤ 511) := by
  refine ⟨meterValueOfLux_min, meterValueOfLux_max, ?_⟩
  intro lux _
  have c4 : ((METER_RANGE : Nat) : Int) - 1 = 511 := by norm_num
  unfold meterValueOfLux
  simp only [c4]
  exact constrain_mem _ 0 511 (by norm_num)

theorem meterValueOfLux_range_witness :
    0 ≤ meterValueOfLux 300 ∧ meterValueOfLux 300 ≤ 511 :=
  meterValueOfLux_range.2.2 300 (by norm_num)

/-- The meter value of a reading `x` in range is the `k` with
`65536^k ≤ x^512 < 65536^(k+1)`, when `k ≤ 511`. -/
theorem meterValueOfLux_of_pow (x : ℝ) (k : Nat) (h1 : 1 ≤ x) (h2 : x ≤ 65536) (hk : k ≤ 511)
    (hlo : (65536 : ℝ) ^ k ≤ x ^ 512) (hhi : x ^ 512 < (65536 : ℝ) ^ (k + 1)) :
    meterValueOfLux x = (k : Int) := by
  rw [meterValueOfLux_eq x h1 h2]
  have hL := logb_max_pos
  have hx : (0 : ℝ) < x := by linarith
  have hlo2 : Real.logb 10 ((65536 : ℝ) ^ k) ≤ Real.logb 10 (x ^ 512) :=
    Real.logb_le_logb_of_le (by norm_num) (by positivity) hlo
  have hhi2 : Real.logb 10 (x ^ 512) < Real.logb 10 ((65536 : ℝ) ^ (k + 1)) :=
    Real.logb_lt_logb (by norm_num) (by positivity) hhi
  rw [Real.logb_pow, Real.logb_pow] at hlo2 hhi2
  have hfloor : ⌊Real.logb 10 x / Real.logb 10 65536 * 512⌋ = (k : Int) := by
    rw [Int.floor_eq_iff]
    constructor
    · rw [div_mul_eq_mul_div, le_div_iff₀ hL]
      push_cast at hlo2 ⊢
      linarith
    · rw [div_mul_eq_mul_div, div_lt_iff₀ hL]
      push_cast at hhi2 ⊢
      linarith
  rw [hfloor]
  exact constrain_between _ _ _ (by omega) (by omega)

/-- C15, as stated, fails on the code: the readings 1000 and 1001 lie in the
input range and both map to the meter value 318 (the mapper truncates to an
integer), and the readings 65535 and 65536 both map to 511 (the final clamp), so
the mapper is not strictly increasing. -/
theorem meterValueOfLux_not_strict :
    meterValueOfLux 1000 = 318 ∧ meterValueOfLux 1001 = 318 ∧
    ¬ (meterValueOfLux 1000 < meterValueOfLux 1001) ∧
    meterValueOfLux 65535 = 511 ∧ meterValueOfLux 65536 = 511 ∧
    ¬ (meterValueOfLux 65535 < meterValueOfLux 65536) := by
  have e1 : meterValueOfLux 1000 = 318 :=
    meterValueOfLux_of_pow 1000 318 (by norm_num) (by norm_num) (by norm_num) (by norm_num)
      (by norm_num)
  have e2 : meterValueOfLux 1001 = 318 :=
    meterValueOfLux_of_pow 1001 318 (by norm_num) (by norm_num) (by norm_num) (by norm_num)
      (by norm_num)
  have e3 : meterValueOfLux 65535 = 511 :=
    meterValueOfLux_of_pow 65535 511 (by norm_num) (by norm_num) (by norm_num) (by norm_num)
      (by norm_num)
  refine ⟨e1, e2, ?_, e3, meterValueOfLux_max, ?_⟩
  · rw [e1, e2]; exact lt_irrefl _
  · rw [e3, meterValueOfLux_max]; exact lt_irrefl _

/-- C15 (amended): with `log10` the exact real logarithm, the logarithmic meter
mapper of `runLightLevelMode` is non-decreasing on the input range: for all lux
values `1 ≤ a ≤ b ≤ 65536`, `map(a) ≤ map(b)`. -/
theorem meterValueOfLux_mono (a b : ℝ) (ha : 1 ≤ a) (hab : a ≤ b) (hb : b ≤ 65536) :
    meterValueOfLux a ≤ meterValueOfLux b := by
  rw [meterValueOfLux_eq a ha (le_trans hab hb), meterValueOfLux_eq b (le_trans ha hab) hb]
  apply constrain_mono _ _ _ _ (by norm_num)
  apply Int.floor_le_floor
  apply mul_le_mul_of_nonneg_right _ (by norm_num)
  apply div_le_div_of_nonneg_right _ (le_of_lt logb_max_pos)
  exact Real.logb_le_logb_of_le (by norm_num) (by linarith) hab

theorem meterValueOfLux_mono_witness :
    meterValueOfLux 2 ≤ meterValueOfLux 3 :=
  meterValueOfLux_mono 2 3 (by norm_num) (by norm_num) (by norm_num)

/-- A rendering loop that writes pixel `i` with a colour computed from the rest
of the state only changes the pixel buffer. -/
theorem foldl_setPixel_eq (f : State → Nat → Nat)
    (hf : ∀ (s : State) (px : List Nat), f { s with pixels := px } = f s)
    (l : List Nat) (s : State) :
    l.foldl (fun s i => stripSetPixelColor s i (f s i)) s =
      { s with pixels := l.foldl (fun px i => px.set i (f s i)) s.pixels } := by
  induction l generalizing s with
  | nil => rfl
  | cons i l ih =>
    simp only [List.foldl_cons]
    rw [ih]
    unfold stripSetPixelColor
    simp only [hf]

theorem displayColorHistory_eq (s : State) :
    displayColorHistory s =
      { s with
        pixels := (List.range 8).foldl
          (fun px i => px.set i (applyContrast s.contrast (s.colorHistory.getD i 0))) s.pixels
        shown := (List.range 8).foldl
          (fun px i => px.set i (applyContrast s.contrast (s.colorHistory.getD i 0))) s.pixels } := by
  unfold displayColorHistory
  simp only []
  rw [foldl_setPixel_eq (fun s i => applyContrast s.contrast (s.colorHistory.getD i 0))
    (fun _ _ => rfl)]
  rfl

theorem displayTemperatureHistory_eq (s : State) :
    displayTemperatureHistory s =
      { s with
        pixels := (List.range 8).foldl
          (fun px i => px.set i
            (applyContrast s.contrast (temperatureToIronColor (s.tempHistory.getD i 0)))) s.pixels
        shown := (List.range 8).foldl
          (fun px i => px.set i
            (applyContrast s.contrast (temperatureToIronColor (s.tempHistory.getD i 0))))
          s.pixels } := by
  unfold displayTemperatureHistory
  simp only []
  rw [foldl_setPixel_eq
    (fun s i => applyContrast s.contrast (temperatureToIronColor (s.tempHistory.getD i 0)))
    (fun _ _ => rfl)]
  rfl

/-- Writing all eight pixels from an eight-slot array. -/
theorem foldl_set_all {α : Type} (f : α → Nat) (d : α) (h : List α) (px : List Nat)
    (hh : h.length = 8) (hpx : px.length = 8) :
    (List.range 8).foldl (fun px i => px.set i (f (h.getD i d))) px = h.map f := by
  match h, hh, px, hpx with
  | [_, _, _, _, _, _, _, _], _, [_, _, _, _, _, _, _, _], _ => rfl

/-- The frame committed by `displayColorHistory`: slot `i` of the colour history,
filtered with the current contrast level, on LED `i`. -/
theorem displayColorHistory_shown (s : State) (hh : s.colorHistory.length = 8)
    (hpx : s.pixels.length = 8) :
    (displayColorHistory s).shown = s.colorHistory.map (applyContrast s.contrast) ∧
    (displayColorHistory s).pixels = s.colorHistory.map (applyContrast s.contrast) := by
  rw [displayColorHistory_eq]
  exact ⟨foldl_set_all (applyContrast s.contrast) 0 _ _ hh hpx,
    foldl_set_all (applyContrast s.contrast) 0 _ _ hh hpx⟩

/-- The frame committed by `displayTemperatureHistory`: the colour of slot `i` of
the temperature history, computed at render time and filtered with the current
contrast level, on LED `i`. -/
theorem displayTemperatureHistory_shown (s : State) (hh : s.tempHistory.length = 8)
    (hpx : s.pixels.length = 8) :
    (displayTemperatureHistory s).shown =
      s.tempHistory.map (fun t => applyContrast s.contrast (temperatureToIronColor t)) ∧
    (displayTemperatureHistory s).pixels =
      s.tempHistory.map (fun t => applyContrast s.contrast (temperatureToIronColor t)) := by
  rw [displayTemperatureHistory_eq]
  exact ⟨foldl_set_all (fun t => applyContrast s.contrast (temperatureToIronColor t)) 0 _ _ hh hpx,
    foldl_set_all (fun t => applyContrast s.contrast (temperatureToIronColor t)) 0 _ _ hh hpx⟩

theorem handleSerialInput_keeps (s : State) (input : Char) :
    (handleSerialInput s input).colorHistory = s.colorHistory ∧
    (handleSerialInput s input).tempHistory = s.tempHistory ∧
    (handleSerialInput s input).pixels = s.pixels ∧
    (handleSerialInput s input).shown = s.shown ∧
    (handleSerialInput s input).lastFastSample = s.lastFastSample ∧
    (handleSerialInput s input).lastSlowSample = s.lastSlowSample ∧
    (handleSerialInput s input).lastDisplay = s.lastDisplay := by
  unfold handleSerialInput
  split <;> first
    | exact ⟨rfl, rfl, rfl, rfl, rfl, rfl, rfl⟩
    | (split <;> exact ⟨rfl, rfl, rfl, rfl, rfl, rfl, rfl⟩)

/-- The display block of `runRGBColorMode` when its tick is due. -/
theorem displayColorTick_due (s : State) (currentTime : Nat)
    (hdue : elapsed currentTime s.lastDisplay ≥ DISPLAY_INTERVAL) :
    displayColorTick s currentTime =
      displayColorHistory
        { s with
          lastDisplay := currentTime
          colorHistory := pushHistory s.colorHistory (currentColorOf s) } := by
  unfold displayColorTick
  rw [if_pos hdue]
  rfl

theorem displayColorTick_not_due (s : State) (currentTime : Nat)
    (hdue : ¬ elapsed currentTime s.lastDisplay ≥ DISPLAY_INTERVAL) :
    displayColorTick s currentTime = s := by
  unfold displayColorTick
  rw [if_neg hdue]

/-- The state after `runRGBColorMode` when the display tick is due. -/
theorem runRGBColorMode_due (s : State) (currentTime r g b : Nat)
    (hh : s.colorHistory.length = 8) (hpx : s.pixels.length = 8)
    (hdue : elapsed currentTime s.lastDisplay ≥ DISPLAY_INTERVAL) :
    (runRGBColorMode s currentTime r g b).colorHistory =
      currentColorOf (sampleColorTick s currentTime r g b) :: s.colorHistory.take 7 ∧
    (runRGBColorMode s currentTime r g b).shown =
      (currentColorOf (sampleColorTick s currentTime r g b) :: s.colorHistory.take 7).map
        (applyContrast s.contrast) ∧
    (runRGBColorMode s currentTime r g b).pixels =
      (currentColorOf (sampleColorTick s currentTime r g b) :: s.colorHistory.take 7).map
        (applyContrast s.contrast) ∧
    (runRGBColorMode s currentTime r g b).lastDisplay = currentTime ∧
    (runRGBColorMode s currentTime r g b).contrast = s.contrast := by
  obtain ⟨f1, f2, f3, f4⟩ := sampleColorTick_frame s currentTime r g b
  rw [runRGBColorMode_eq, displayColorTick_due _ _ (by rw [f2]; exact hdue)]
  have hpush : pushHistory (sampleColorTick s currentTime r g b).colorHistory
      (currentColorOf (sampleColorTick s currentTime r g b)) =
      currentColorOf (sampleColorTick s currentTime r g b) :: s.colorHistory.take 7 := by
    rw [f1, pushHistory_eq _ hh]
  have hlen : (currentColorOf (sampleColorTick s currentTime r g b)
      :: s.colorHistory.take 7).length = 8 := by
    rw [List.length_cons, List.length_take, hh]; rfl
  obtain ⟨g1, g2⟩ := displayColorHistory_shown
    { sampleColorTick s currentTime r g b with
      lastDisplay := currentTime
      colorHistory := pushHistory (sampleColorTick s currentTime r g b).colorHistory
        (currentColorOf (sampleColorTick s currentTime r g b)) }
    (by show (pushHistory _ _).length = 8; rw [hpush]; exact hlen)
    (by show (sampleColorTick s currentTime r g b).pixels.length = 8; rw [f4]; exact hpx)
  refine ⟨?_, ?_, ?_, ?_, ?_⟩
  · rw [displayColorHistory_colorHistory]; exact hpush
  · rw [g1]
    show (pushHistory _ _).map (applyContrast (sampleColorTick s currentTime r g b).contrast) = _
    rw [hpush, f3]
  · rw [g2]
    show (pushHistory _ _).map (applyContrast (sampleColorTick s currentTime r g b).contrast) = _
    rw [hpush, f3]
  · rw [displayColorHistory_eq]
  · rw [displayColorHistory_eq]; exact f3

theorem colorScenario_eq :
    colorScenario =
      runRGBColorMode
        ([100, 200, 300, 400, 500, 600, 700, 800, 900].foldl
          (fun s currentTime => runRGBColorMode s currentTime 100 100 100) (afterSerial ['C']))
        1000 100 100 100 := by
  unfold colorScenario
  simp only [List.foldl_cons, List.foldl_nil]

theorem currentColorOf_example (s : State)
    (hs : s.colorSamples = List.replicate 10 ⟨100, 100, 100⟩) :
    currentColorOf s = Color 8 8 8 := by
  have hmean : colorMean s = (100, 100, 100) := by
    unfold colorMean
    rw [hs]
    decide
  unfold currentColorOf
  simp only [hmean, ratioColor_example]

set_option maxRecDepth 100000 in
/-- The state reached by the colour-mode run: the colour `(8,8,8)` has been
pushed into slot 0 of the history, at the default contrast level 8. -/
theorem colorScenario_state :
    colorScenario.colorHistory = [Color 8 8 8, 0, 0, 0, 0, 0, 0, 0] ∧
    colorScenario.shown = [Color 4 4 4, 0, 0, 0, 0, 0, 0, 0] ∧
    colorScenario.pixels.length = 8 ∧
    colorScenario.lastDisplay = 1000 ∧
    colorScenario.contrast = 8 := by
  obtain ⟨h1, h2, h3, h4, h5⟩ := runRGBColorMode_due
    ([100, 200, 300, 400, 500, 600, 700, 800, 900].foldl
      (fun s currentTime => runRGBColorMode s currentTime 100 100 100) (afterSerial ['C']))
    1000 100 100 100 (by decide) (by decide) (by decide)
  rw [← colorScenario_eq] at h1 h2 h3 h4 h5
  rw [currentColorOf_example _ (by decide)] at h1 h2 h3
  refine ⟨?_, ?_, ?_, h4, ?_⟩
  · rw [h1]; decide
  · rw [h2]; decide
  · rw [h3]; decide
  · rw [h5]; decide

theorem handleSerialInput_minus (s : State) (h : s.contrast > 0) :
    (handleSerialInput s '-').contrast = s.contrast - 1 := by
  show (if s.contrast > 0 then _ else s).contrast = _
  rw [if_pos h]

/-- C17, as stated, fails on the code: in the colour-mode run the colour
`(8,8,8)` is pushed at contrast level 8; if `'-'` then lowers the contrast to 7,
the next colour-history render shows that already-pushed slot (now slot 1) as
`(3,3,3)`, whereas it shows `(4,4,4)` had the contrast not changed. -/
theorem colorHistory_render_counterexample :
    colorScenario.colorHistory[0]? = some (Color 8 8 8) ∧
    colorScenario.contrast = 8 ∧
    (handleSerialInput colorScenario '-').contrast = 7 ∧
    (runRGBColorMode colorScenario 2000 100 100 100).shown[1]? = some (Color 4 4 4) ∧
    (runRGBColorMode (handleSerialInput colorScenario '-') 2000 100 100 100).shown[1]? =
      some (Color 3 3 3) ∧
    (runRGBColorMode (handleSerialInput colorScenario '-') 2000 100 100 100).shown[1]? ≠
      (runRGBColorMode colorScenario 2000 100 100 100).shown[1]? := by
  obtain ⟨h1, _, h3, h4, h5⟩ := colorScenario_state
  obtain ⟨k1, _, k3, _, _, _, k7⟩ := handleSerialInput_keeps colorScenario '-'
  have hc : (handleSerialInput colorScenario '-').contrast = 7 := by
    rw [handleSerialInput_minus _ (by rw [h5]; decide), h5]
  have e1 : (runRGBColorMode colorScenario 2000 100 100 100).shown[1]? = some (Color 4 4 4) := by
    rw [(runRGBColorMode_due colorScenario 2000 100 100 100 (by rw [h1]; rfl) h3
      (by rw [h4]; decide)).2.1, h1, h5]
    decide
  have e2 : (runRGBColorMode (handleSerialInput colorScenario '-') 2000 100 100 100).shown[1]? =
      some (Color 3 3 3) := by
    rw [(runRGBColorMode_due (handleSerialInput colorScenario '-') 2000 100 100 100
      (by rw [k1, h1]; rfl) (by rw [k3]; exact h3) (by rw [k7, h4]; decide)).2.1, k1, h1, hc]
    decide
  refine ⟨by rw [h1]; rfl, h5, hc, e1, e2, ?_⟩
  rw [e1, e2]
  decide

theorem sampleTempTick_frame (s : State) (currentTime : Nat) (temp : ℚ) :
    (sampleTempTick s currentTime temp).tempHistory = s.tempHistory ∧
    (sampleTempTick s currentTime temp).lastDisplay = s.lastDisplay ∧
    (sampleTempTick s currentTime temp).contrast = s.contrast ∧
    (sampleTempTick s currentTime temp).pixels = s.pixels := by
  unfold sampleTempTick
  split <;> exact ⟨rfl, rfl, rfl, rfl⟩

/-- The display block of `runTemperatureMode` when its tick is due. -/
theorem displayTempTick_due (s : State) (currentTime : Nat)
    (hdue : elapsed currentTime s.lastDisplay ≥ DISPLAY_INTERVAL) :
    displayTempTick s currentTime =
      displayTemperatureHistory
        { s with
          lastDisplay := currentTime
          serialOut := s.serialOut ++ [SerialLine.temperature (tempMean s)]
          tempHistory := pushHistory s.tempHistory (tempMean s) } := by
  unfold displayTempTick
  rw [if_pos hdue]
  rfl

theorem displayTempTick_not_due (s : State) (currentTime : Nat)
    (hdue : ¬ elapsed currentTime s.lastDisplay ≥ DISPLAY_INTERVAL) :
    displayTempTick s currentTime = s := by
  unfold displayTempTick
  rw [if_neg hdue]

/-- The state after `runTemperatureMode` when the display tick is due. -/
theorem runTemperatureMode_due (s : State) (currentTime : Nat) (temp : ℚ)
    (hh : s.tempHistory.length = 8) (hpx : s.pixels.length = 8)
    (hdue : elapsed currentTime s.lastDisplay ≥ DISPLAY_INTERVAL) :
    (runTemperatureMode s currentTime temp).tempHistory =
      tempMean (sampleTempTick s currentTime temp) :: s.tempHistory.take 7 ∧
    (runTemperatureMode s currentTime temp).shown =
      (tempMean (sampleTempTick s currentTime temp) :: s.tempHistory.take 7).map
        (fun t => applyContrast s.contrast (temperatureToIronColor t)) ∧
    (runTemperatureMode s currentTime temp).lastDisplay = currentTime ∧
    (runTemperatureMode s currentTime temp).contrast = s.contrast := by
  obtain ⟨f1, f2, f3, f4⟩ := sampleTempTick_frame s currentTime temp
  rw [runTemperatureMode_eq, displayTempTick_due _ _ (by rw [f2]; exact hdue)]
  have hpush : pushHistory (sampleTempTick s currentTime temp).tempHistory
      (tempMean (sampleTempTick s currentTime temp)) =
      tempMean (sampleTempTick s currentTime temp) :: s.tempHistory.take 7 := by
    rw [f1, pushHistory_eq _ hh]
  have hlen : (tempMean (sampleTempTick s currentTime temp)
      :: s.tempHistory.take 7).length = 8 := by
    rw [List.length_cons, List.length_take, hh]; rfl
  obtain ⟨g1, _⟩ := displayTemperatureHistory_shown
    { sampleTempTick s currentTime temp with
      lastDisplay := currentTime
      serialOut := (sampleTempTick s currentTime temp).serialOut ++
        [SerialLine.temperature (tempMean (sampleTempTick s currentTime temp))]
      tempHistory := pushHistory (sampleTempTick s currentTime temp).tempHistory
        (tempMean (sampleTempTick s currentTime temp)) }
    (by show (pushHistory _ _).length = 8; rw [hpush]; exact hlen)
    (by show (sampleTempTick s currentTime temp).pixels.length = 8; rw [f4]; exact hpx)
  refine ⟨?_, ?_, ?_, ?_⟩
  · rw [displayTemperatureHistory_eq]; exact hpush
  · rw [g1]
    show (pushHistory _ _).map
      (fun t => applyContrast (sampleTempTick s currentTime temp).contrast
        (temperatureToIronColor t)) = _
    rw [hpush, f3]
  · rw [displayTemperatureHistory_eq]
  · rw [displayTemperatureHistory_eq]; exact f3

theorem sampleColorTick_contrast (s : State) (c currentTime r g b : Nat) :
    sampleColorTick { s with contrast := c } currentTime r g b =
      { sampleColorTick s currentTime r g b with contrast := c } := by
  unfold sampleColorTick
  split <;> rfl

theorem displayColorTick_colorHistory (s : State) (currentTime : Nat) :
    (displayColorTick s currentTime).colorHistory =
      if elapsed currentTime s.lastDisplay ≥ DISPLAY_INTERVAL then
        pushHistory s.colorHistory (currentColorOf s)
      else s.colorHistory := by
  by_cases hdue : elapsed currentTime s.lastDisplay ≥ DISPLAY_INTERVAL
  · rw [displayColorTick_due _ _ hdue, displayColorHistory_colorHistory, if_pos hdue]
  · rw [displayColorTick_not_due _ _ hdue, if_neg hdue]

/-- C17 (amended): both history renderers filter with the contrast level current
at render time.  The colour history caches at push time the ratio-mapped RGB
before contrast filtering, a value that does not depend on the contrast level;
the temperature history stores the temperature and recomputes the colour at
render time.  If the contrast level is changed by a serial command after values
have been pushed, the next temperature-history render and the next
colour-history render both show every already-pushed slot filtered with the new
contrast level. -/
theorem history_render_contrast (s : State) (input : Char) (currentTime : Nat)
    (hc : s.colorHistory.length = 8) (ht : s.tempHistory.length = 8)
    (hpx : s.pixels.length = 8)
    (hdue : elapsed currentTime s.lastDisplay ≥ DISPLAY_INTERVAL) :
    (∀ temp : ℚ,
      (runTemperatureMode (handleSerialInput s input) currentTime temp).shown =
        (tempMean (sampleTempTick (handleSerialInput s input) currentTime temp)
            :: s.tempHistory.take 7).map
          (fun t => applyContrast (handleSerialInput s input).contrast
            (temperatureToIronColor t))) ∧
    (∀ r g b : Nat,
      (runRGBColorMode (handleSerialInput s input) currentTime r g b).shown =
        (currentColorOf (sampleColorTick (handleSerialInput s input) currentTime r g b)
            :: s.colorHistory.take 7).map
          (applyContrast (handleSerialInput s input).contrast)) ∧
    (∀ c r g b : Nat,
      (runRGBColorMode { s with contrast := c } currentTime r g b).colorHistory =
        (runRGBColorMode s currentTime r g b).colorHistory) := by
  obtain ⟨k1, k2, k3, _, _, _, k7⟩ := handleSerialInput_keeps s input
  refine ⟨?_, ?_, ?_⟩
  · intro temp
    rw [(runTemperatureMode_due (handleSerialInput s input) currentTime temp
      (by rw [k2]; exact ht) (by rw [k3]; exact hpx) (by rw [k7]; exact hdue)).2.1, k2]
  · intro r g b
    rw [(runRGBColorMode_due (handleSerialInput s input) currentTime r g b
      (by rw [k1]; exact hc) (by rw [k3]; exact hpx) (by rw [k7]; exact hdue)).2.1, k1]
  · intro c r g b
    rw [runRGBColorMode_eq, runRGBColorMode_eq, displayColorTick_colorHistory,
      displayColorTick_colorHistory, sampleColorTick_contrast]
    rfl

set_option maxRecDepth 100000 in
/-- The amended C17 at the colour-mode run: `(8,8,8)` was pushed at contrast
level 8, where it is displayed as `(4,4,4)`; after `'-'` has lowered the contrast
to 7, the next render shows the already-pushed slot (now slot 1) as `(3,3,3)`,
filtered with the new level. -/
theorem history_render_contrast_witness :
    colorScenario.colorHistory = [Color 8 8 8, 0, 0, 0, 0, 0, 0, 0] ∧
    colorScenario.contrast = 8 ∧
    (handleSerialInput colorScenario '-').contrast = 7 ∧
    (runRGBColorMode (handleSerialInput colorScenario '-') 2000 100 100 100).shown =
      (currentColorOf (sampleColorTick (handleSerialInput colorScenario '-') 2000 100 100 100)
          :: colorScenario.colorHistory.take 7).map
        (applyContrast (handleSerialInput colorScenario '-').contrast) ∧
    (runRGBColorMode (handleSerialInput colorScenario '-') 2000 100 100 100).shown[1]? =
      some (Color 3 3 3) ∧
    applyContrast colorScenario.contrast (Color 8 8 8) = Color 4 4 4 := by
  obtain ⟨h1, _, h3, h4, h5⟩ := colorScenario_state
  have hc : (handleSerialInput colorScenario '-').contrast = 7 := by
    rw [handleSerialInput_minus _ (by rw [h5]; decide), h5]
  have hrender :=
    (history_render_contrast colorScenario '-' 2000 (by rw [h1]; rfl) (by decide) h3
      (by rw [h4]; decide)).2.1 100 100 100
  refine ⟨h1, h5, hc, hrender, ?_, ?_⟩
  · rw [hrender, hc, h1]
    decide
  · rw [h5]
    decide

/-! ## Monotonicity of the bar meter -/

theorem channels_applyContrast (contrast c : Nat) (hc : contrast ≤ 15) :
    redOf (applyContrast contrast c) = redOf c * contrast / 15 ∧
    greenOf (applyContrast contrast c) = greenOf c * contrast / 15 ∧
    blueOf (applyContrast contrast c) = blueOf c * contrast / 15 := by
  rw [applyContrast_eq contrast c hc, redOf_Color, greenOf_Color, blueOf_Color,
    Nat.mod_eq_of_lt (scaled_lt _ _ (redOf_lt c) hc),
    Nat.mod_eq_of_lt (scaled_lt _ _ (greenOf_lt c) hc),
    Nat.mod_eq_of_lt (scaled_lt _ _ (blueOf_lt c) hc)]
  exact ⟨rfl, rfl, rfl⟩

theorem applyContrast_black (contrast : Nat) : applyContrast contrast (Color 0 0 0) = 0 := by
  have h : contrastChannel contrast 0 = 0 := by
    unfold contrastChannel
    simp only [Nat.cast_zero, Int.zero_mul]
    decide
  show Color (contrastChannel contrast 0) (contrastChannel contrast 0)
    (contrastChannel contrast 0) = 0
  rw [h]
  decide

theorem sixteenths_lt (ch k : Nat) (hch : ch < 256) (hk : k ≤ 16) : ch * k / 16 < 256 := by
  have hp : ch * k ≤ 255 * 16 := Nat.mul_le_mul (by omega) hk
  omega

/-- LED `i` of the frame of `displayMeter` for a value `v` in 0..511: the palette
colour at `16/16` below the partial LED, at `remain/16` on it, at `0/16` above,
then contrast-filtered. -/
theorem displayMeter_pixel (s : State) (v i : Nat) (hv : v ≤ 511) (hi : i < 8) :
    (displayMeter s (v : Int)).shown.getD i 0 =
      applyContrast s.contrast
        (Color
          (redOf (meterColors.getD i 0) *
            (if i < v / 64 then 16 else if i = v / 64 then v % 64 * 16 / 64 else 0) / 16)
          (greenOf (meterColors.getD i 0) *
            (if i < v / 64 then 16 else if i = v / 64 then v % 64 * 16 / 64 else 0) / 16)
          (blueOf (meterColors.getD i 0) *
            (if i < v / 64 then 16 else if i = v / 64 then v % 64 * 16 / 64 else 0) / 16)) := by
  have hk : v / 64 < 8 := by omega
  rw [displayMeter_shown s v hv, List.getD_eq_getElem?_getD, List.getElem?_set,
    foldl_set_length, List.length_replicate, foldl_set_getElem?, List.length_replicate]
  by_cases h1 : i < v / 64
  · rw [if_neg (by omega), if_pos ⟨h1, hi⟩]
    simp only [if_pos h1, Nat.mul_div_cancel _ (by decide : 0 < 16), Option.getD_some]
    have hpal : meterColors.getD i 0 < 2 ^ 24 := by
      interval_cases i <;> decide
    rw [Color_channels _ hpal]
  · by_cases h2 : i = v / 64
    · subst h2
      simp only [if_true, if_pos hi, if_neg h1, Option.getD_some]
    · rw [if_neg (fun h => h2 h.symm), if_neg (fun h => h1 h.1), List.getElem?_replicate,
        if_pos hi]
      simp only [if_neg h1, if_neg h2, Nat.mul_zero, Nat.zero_div, Option.getD_some]
      exact (applyContrast_black s.contrast).symm

theorem channel_level_mono (ch contrast k l : Nat) (hkl : k ≤ l) :
    ch * k / 16 * contrast / 15 ≤ ch * l / 16 * contrast / 15 :=
  Nat.div_le_div_right
    (Nat.mul_le_mul_right contrast (Nat.div_le_div_right (Nat.mul_le_mul_left ch hkl)))

/-- The channels of a contrast-filtered colour whose channels are a palette
channel scaled by `k/16`. -/
theorem channels_scaled (contrast r g b k : Nat) (hc : contrast ≤ 15) (hr : r < 256)
    (hg : g < 256) (hb : b < 256) (hk : k ≤ 16) :
    redOf (applyContrast contrast (Color (r * k / 16) (g * k / 16) (b * k / 16))) =
      r * k / 16 * contrast / 15 ∧
    greenOf (applyContrast contrast (Color (r * k / 16) (g * k / 16) (b * k / 16))) =
      g * k / 16 * contrast / 15 ∧
    blueOf (applyContrast contrast (Color (r * k / 16) (g * k / 16) (b * k / 16))) =
      b * k / 16 * contrast / 15 := by
  obtain ⟨h1, h2, h3⟩ :=
    channels_applyContrast contrast (Color (r * k / 16) (g * k / 16) (b * k / 16)) hc
  rw [h1, h2, h3, redOf_Color, greenOf_Color, blueOf_Color,
    Nat.mod_eq_of_lt (sixteenths_lt r k hr hk), Nat.mod_eq_of_lt (sixteenths_lt g k hg hk),
    Nat.mod_eq_of_lt (sixteenths_lt b k hb hk)]
  exact ⟨rfl, rfl, rfl⟩

/-- C18: the bar meter rises monotonically.  For every contrast level in 0..15,
every LED index `i` in 0..7 and all values `0 ≤ v ≤ w ≤ 511`, each of the R, G
and B channels of LED `i` in the frame of `displayMeter(v)` is at most the same
channel of LED `i` in the frame of `displayMeter(w)`. -/
theorem displayMeter_mono (s : State) (v w i : Nat) (hc : s.contrast ≤ 15) (hvw : v ≤ w)
    (hw : w ≤ 511) (hi : i < 8) :
    redOf ((displayMeter s (v : Int)).shown.getD i 0) ≤
      redOf ((displayMeter s (w : Int)).shown.getD i 0) ∧
    greenOf ((displayMeter s (v : Int)).shown.getD i 0) ≤
      greenOf ((displayMeter s (w : Int)).shown.getD i 0) ∧
    blueOf ((displayMeter s (v : Int)).shown.getD i 0) ≤
      blueOf ((displayMeter s (w : Int)).shown.getD i 0) := by
  rw [displayMeter_pixel s v i (le_trans hvw hw) hi, displayMeter_pixel s w i hw hi]
  have hlv : (if i < v / 64 then 16 else if i = v / 64 then v % 64 * 16 / 64 else 0) ≤ 16 := by
    split_ifs <;> omega
  have hlw : (if i < w / 64 then 16 else if i = w / 64 then w % 64 * 16 / 64 else 0) ≤ 16 := by
    split_ifs <;> omega
  have hl : (if i < v / 64 then 16 else if i = v / 64 then v % 64 * 16 / 64 else 0) ≤
      (if i < w / 64 then 16 else if i = w / 64 then w % 64 * 16 / 64 else 0) := by
    split_ifs <;> omega
  generalize (if i < v / 64 then 16 else if i = v / 64 then v % 64 * 16 / 64 else 0) = k at *
  generalize (if i < w / 64 then 16 else if i = w / 64 then w % 64 * 16 / 64 else 0) = l at *
  obtain ⟨a1, a2, a3⟩ := channels_scaled s.contrast _ _ _ k hc (redOf_lt (meterColors.getD i 0))
    (greenOf_lt (meterColors.getD i 0)) (blueOf_lt (meterColors.getD i 0)) hlv
  obtain ⟨b1, b2, b3⟩ := channels_scaled s.contrast _ _ _ l hc (redOf_lt (meterColors.getD i 0))
    (greenOf_lt (meterColors.getD i 0)) (blueOf_lt (meterColors.getD i 0)) hlw
  rw [a1, a2, a3, b1, b2, b3]
  exact ⟨channel_level_mono _ _ _ _ hl, channel_level_mono _ _ _ _ hl,
    channel_level_mono _ _ _ _ hl⟩

theorem displayMeter_mono_witness :
    greenOf ((displayMeter initialState ((63 : Nat) : Int)).shown.getD 0 0) ≤
      greenOf ((displayMeter initialState ((64 : Nat) : Int)).shown.getD 0 0) :=
  (displayMeter_mono initialState 63 64 0 (by decide) (by decide) (by decide) (by decide)).2.1

/-! ## Array bounds -/

/-- The function `displayMeter` in terms of `meterOnLeds`. -/
theorem displayMeter_onLeds (s : State) (value : Int) :
    displayMeter s value =
      stripShow
        (if meterOnLeds value > 0 then
          stripSetPixelColor (displayMeterFull (stripClear s) (meterOnLeds value))
            (meterOnLeds value - 1).toNat
            (applyContrast (displayMeterFull (stripClear s) (meterOnLeds value)).contrast
              (Color
                (smoothChannel (redOf (meterColors.getD (meterOnLeds value - 1).toNat 0))
                  (Int.tdiv (wrapInt16 (Int.tmod value (Int.tdiv METER_RANGE LED_COUNT) * 16))
                    (Int.tdiv METER_RANGE LED_COUNT)))
                (smoothChannel (greenOf (meterColors.getD (meterOnLeds value - 1).toNat 0))
                  (Int.tdiv (wrapInt16 (Int.tmod value (Int.tdiv METER_RANGE LED_COUNT) * 16))
                    (Int.tdiv METER_RANGE LED_COUNT)))
                (smoothChannel (blueOf (meterColors.getD (meterOnLeds value - 1).toNat 0))
                  (Int.tdiv (wrapInt16 (Int.tmod value (Int.tdiv METER_RANGE LED_COUNT) * 16))
                    (Int.tdiv METER_RANGE LED_COUNT)))))
        else displayMeterFull (stripClear s) (meterOnLeds value)) := rfl

/-- The function `displayMeter` only changes the pixel buffer and the displayed
frame. -/
theorem displayMeter_only_strip (s : State) (value : Int) :
    ∃ px : List Nat, displayMeter s value = { s with pixels := px, shown := px } := by
  have hfull : ∀ n : Int, ∃ px : List Nat,
      displayMeterFull (stripClear s) n = { s with pixels := px } := by
    intro n
    unfold displayMeterFull
    rw [foldl_setPixel_eq (fun s i => applyContrast s.contrast (meterColors.getD i 0))
      (fun _ _ => rfl)]
    exact ⟨_, rfl⟩
  obtain ⟨px, hpx⟩ := hfull (meterOnLeds value)
  rw [displayMeter_onLeds, hpx]
  by_cases h : meterOnLeds value > 0
  · rw [if_pos h]
    exact ⟨_, rfl⟩
  · rw [if_neg h]
    exact ⟨_, rfl⟩

theorem meterOnLeds_range (value : Int) : 0 ≤ meterOnLeds value ∧ meterOnLeds value ≤ 8 :=
  constrain_mem _ 0 8 (by decide)

theorem runLightLevelMode_samples (s : State) (currentTime : Nat) (lux : ℝ) :
    (runLightLevelMode s currentTime lux).colorSamples = s.colorSamples ∧
    (runLightLevelMode s currentTime lux).colorSampleIndex = s.colorSampleIndex ∧
    (runLightLevelMode s currentTime lux).tempSamples = s.tempSamples ∧
    (runLightLevelMode s currentTime lux).tempSampleIndex = s.tempSampleIndex := by
  unfold runLightLevelMode
  split
  · simp only []
    split
    · obtain ⟨px, hpx⟩ := displayMeter_only_strip
        { s with lastFastSample := currentTime } (meterValueOfLux lux)
      rw [hpx]
      exact ⟨rfl, rfl, rfl, rfl⟩
    · exact ⟨rfl, rfl, rfl, rfl⟩
  · exact ⟨rfl, rfl, rfl, rfl⟩

theorem displayColorTick_samples (s : State) (currentTime : Nat) :
    (displayColorTick s currentTime).colorSamples = s.colorSamples ∧
    (displayColorTick s currentTime).colorSampleIndex = s.colorSampleIndex ∧
    (displayColorTick s currentTime).tempSamples = s.tempSamples ∧
    (displayColorTick s currentTime).tempSampleIndex = s.tempSampleIndex := by
  by_cases hdue : elapsed currentTime s.lastDisplay ≥ DISPLAY_INTERVAL
  · rw [displayColorTick_due _ _ hdue, displayColorHistory_eq]
    exact ⟨rfl, rfl, rfl, rfl⟩
  · rw [displayColorTick_not_due _ _ hdue]
    exact ⟨rfl, rfl, rfl, rfl⟩

theorem displayTempTick_samples (s : State) (currentTime : Nat) :
    (displayTempTick s currentTime).colorSamples = s.colorSamples ∧
    (displayTempTick s currentTime).colorSampleIndex = s.colorSampleIndex ∧
    (displayTempTick s currentTime).tempSamples = s.tempSamples ∧
    (displayTempTick s currentTime).tempSampleIndex = s.tempSampleIndex := by
  by_cases hdue : elapsed currentTime s.lastDisplay ≥ DISPLAY_INTERVAL
  · rw [displayTempTick_due _ _ hdue, displayTemperatureHistory_eq]
    exact ⟨rfl, rfl, rfl, rfl⟩
  · rw [displayTempTick_not_due _ _ hdue]
    exact ⟨rfl, rfl, rfl, rfl⟩

/-- Every iteration of `loop()` leads from a reachable state to a reachable
state. -/
theorem loop_reachable (s : State) (currentTime : Nat) (serial : Option Char) (lux : ℝ)
    (r g b : Nat) (temp : ℚ) (h : Reachable s) :
    Reachable (loop s currentTime serial lux r g b temp) := by
  have h1 : Reachable (match serial with
      | some input => handleSerialInput s input
      | none => s) := by
    cases serial with
    | none => exact h
    | some input => exact Reachable.serial s input h
  unfold loop
  simp only []
  split
  · exact Reachable.light _ _ _ h1
  · rw [runRGBColorMode_eq]
    exact Reachable.colorDisplay _ _ (Reachable.colorSample _ _ _ _ _ h1)
  · rw [runTemperatureMode_eq]
    exact Reachable.tempDisplay _ _ (Reachable.tempSample _ _ _ h1)

theorem handleSerialInput_samples_inv (s : State) (input : Char)
    (h : s.colorSampleIndex < 10 ∧ s.tempSampleIndex < 10 ∧
      s.colorSamples.length = 10 ∧ s.tempSamples.length = 10) :
    (handleSerialInput s input).colorSampleIndex < 10 ∧
    (handleSerialInput s input).tempSampleIndex < 10 ∧
    (handleSerialInput s input).colorSamples.length = 10 ∧
    (handleSerialInput s input).tempSamples.length = 10 := by
  obtain ⟨h1, h2, h3, h4⟩ := h
  unfold handleSerialInput
  split <;> first
    | exact ⟨h1, h2, h3, h4⟩
    | exact ⟨Nat.zero_lt_succ 9, h2, List.length_replicate 10 _, h4⟩
    | exact ⟨h1, Nat.zero_lt_succ 9, h3, List.length_replicate 10 _⟩
    | (split <;> exact ⟨h1, h2, h3, h4⟩)

/-- C19: every array access of the core is in bounds.  For every `int` argument
`value`, `onLeds` lies in 0..8 after the `constrain`, and every index at which
`displayMeter` reads `meterColors` (8 entries) and writes the strip is in 0..7;
in every reachable state `colorSampleIndex` and `tempSampleIndex` are below 10,
the length of the sample arrays, so every write into them is in bounds. -/
theorem accesses_in_bounds :
    meterColors.length = 8 ∧
    (∀ value : Int, 0 ≤ meterOnLeds value ∧ meterOnLeds value ≤ 8 ∧
      ∀ j ∈ displayMeterIndices value, 0 ≤ j ∧ j < 8) ∧
    (∀ s : State, Reachable s →
      s.colorSampleIndex < 10 ∧ s.tempSampleIndex < 10 ∧
      s.colorSamples.length = 10 ∧ s.tempSamples.length = 10) := by
  refine ⟨rfl, ?_, ?_⟩
  · intro value
    obtain ⟨h0, h8⟩ := meterOnLeds_range value
    refine ⟨h0, h8, ?_⟩
    intro j hj
    unfold displayMeterIndices at hj
    rw [List.mem_append] at hj
    rcases hj with hj | hj
    · rw [List.mem_map] at hj
      obtain ⟨i, hi, rfl⟩ := hj
      rw [List.mem_range] at hi
      omega
    · by_cases hpos : meterOnLeds value > 0
      · rw [if_pos hpos, List.mem_singleton] at hj
        omega
      · rw [if_neg hpos] at hj
        exact absurd hj (List.not_mem_nil _)
  · intro s hs
    induction hs with
    | init => exact ⟨by decide, by decide, by decide, by decide⟩
    | serial s input _ ih => exact handleSerialInput_samples_inv s input ih
    | light s currentTime lux _ ih =>
      obtain ⟨e1, e2, e3, e4⟩ := runLightLevelMode_samples s currentTime lux
      rw [e1, e2, e3, e4]
      exact ih
    | colorSample s currentTime r g b _ ih =>
      obtain ⟨h1, h2, h3, h4⟩ := ih
      unfold sampleColorTick
      split
      · refine ⟨Nat.mod_lt _ (by decide), h2, ?_, h4⟩
        show (s.colorSamples.set _ _).length = 10
        rw [List.length_set]
        exact h3
      · exact ⟨h1, h2, h3, h4⟩
    | colorDisplay s currentTime _ ih =>
      obtain ⟨e1, e2, e3, e4⟩ := displayColorTick_samples s currentTime
      rw [e1, e2, e3, e4]
      exact ih
    | tempSample s currentTime temp _ ih =>
      obtain ⟨h1, h2, h3, h4⟩ := ih
      unfold sampleTempTick
      split
      · refine ⟨h1, Nat.mod_lt _ (by decide), h3, ?_⟩
        show (s.tempSamples.set _ _).length = 10
        rw [List.length_set]
        exact h4
      · exact ⟨h1, h2, h3, h4⟩
    | tempDisplay s currentTime _ ih =>
      obtain ⟨e1, e2, e3, e4⟩ := displayTempTick_samples s currentTime
      rw [e1, e2, e3, e4]
      exact ih

theorem accesses_in_bounds_witness :
    (handleSerialInput initialState 'C').colorSampleIndex < 10 ∧
    (handleSerialInput initialState 'C').tempSampleIndex < 10 ∧
    (handleSerialInput initialState 'C').colorSamples.length = 10 ∧
    (handleSerialInput initialState 'C').tempSamples.length = 10 :=
  accesses_in_bounds.2.2 (handleSerialInput initialState 'C')
    (Reachable.serial initialState 'C' Reachable.init)

/-! ## Cadence checks -/

/-- The 32-bit difference of timestamps recovers the elapsed time across a
wrap-around of the clock. -/
theorem elapsed_wrap (last d : Nat) (hd : d < 2 ^ 32) :
    elapsed ((last + d) % 2 ^ 32) last = d := by
  unfold elapsed
  norm_num at hd ⊢
  omega

theorem sampleColorTick_cases (s : State) (currentTime r g b : Nat) :
    (elapsed currentTime s.lastSlowSample ≥ SLOW_SAMPLE_INTERVAL →
      sampleColorTick s currentTime r g b =
        recordColorSample { s with lastSlowSample := currentTime } r g b) ∧
    (¬ elapsed currentTime s.lastSlowSample ≥ SLOW_SAMPLE_INTERVAL →
      sampleColorTick s currentTime r g b = s) := by
  unfold sampleColorTick
  exact ⟨fun h => by rw [if_pos h], fun h => by rw [if_neg h]⟩

theorem sampleTempTick_cases (s : State) (currentTime : Nat) (temp : ℚ) :
    (elapsed currentTime s.lastSlowSample ≥ SLOW_SAMPLE_INTERVAL →
      sampleTempTick s currentTime temp =
        recordTempSample { s with lastSlowSample := currentTime } temp) ∧
    (¬ elapsed currentTime s.lastSlowSample ≥ SLOW_SAMPLE_INTERVAL →
      sampleTempTick s currentTime temp = s) := by
  unfold sampleTempTick
  exact ⟨fun h => by rw [if_pos h], fun h => by rw [if_neg h]⟩

theorem runLightLevelMode_cases (s : State) (currentTime : Nat) (lux : ℝ) :
    (elapsed currentTime s.lastFastSample ≥ FAST_SAMPLE_INTERVAL →
      (runLightLevelMode s currentTime lux).lastFastSample = currentTime) ∧
    (¬ elapsed currentTime s.lastFastSample ≥ FAST_SAMPLE_INTERVAL →
      runLightLevelMode s currentTime lux = s) := by
  unfold runLightLevelMode
  constructor
  · intro h
    rw [if_pos h]
    simp only []
    split
    · obtain ⟨px, hpx⟩ := displayMeter_only_strip
        { s with lastFastSample := currentTime } (meterValueOfLux lux)
      rw [hpx]
    · rfl
  · intro h
    rw [if_neg h]

/-- C20: the cadence checks are correct across wrap-around of the 32-bit
millisecond clock.  With 32-bit timestamps, if the clock has advanced by `d`
milliseconds (`d < 2^32`) since the stored last-tick timestamp, so that the
current time is `(last + d) mod 2^32` whether or not the clock wrapped, then the light-mode tick and the 10 Hz
sampling ticks fire if and only if `d ≥ 100`, and the display ticks fire if and
only if `d ≥ 1000`: a firing tick does its work and sets its stored timestamp to
the current time, a tick that does not fire leaves the state unchanged. -/
theorem cadence_wraparound (s : State) (d : Nat) (hd : d < 2 ^ 32) :
    ((elapsed ((s.lastFastSample + d) % 2 ^ 32) s.lastFastSample ≥ FAST_SAMPLE_INTERVAL ↔
        d ≥ 100) ∧
      (∀ lux : ℝ, d ≥ 100 →
        (runLightLevelMode s ((s.lastFastSample + d) % 2 ^ 32) lux).lastFastSample =
          (s.lastFastSample + d) % 2 ^ 32) ∧
      (∀ lux : ℝ, d < 100 →
        runLightLevelMode s ((s.lastFastSample + d) % 2 ^ 32) lux = s)) ∧
    ((elapsed ((s.lastSlowSample + d) % 2 ^ 32) s.lastSlowSample ≥ SLOW_SAMPLE_INTERVAL ↔
        d ≥ 100) ∧
      (∀ r g b : Nat, d ≥ 100 →
        sampleColorTick s ((s.lastSlowSample + d) % 2 ^ 32) r g b =
          recordColorSample { s with lastSlowSample := (s.lastSlowSample + d) % 2 ^ 32 } r g b) ∧
      (∀ r g b : Nat, d < 100 →
        sampleColorTick s ((s.lastSlowSample + d) % 2 ^ 32) r g b = s) ∧
      (∀ temp : ℚ, d ≥ 100 →
        sampleTempTick s ((s.lastSlowSample + d) % 2 ^ 32) temp =
          recordTempSample { s with lastSlowSample := (s.lastSlowSample + d) % 2 ^ 32 } temp) ∧
      (∀ temp : ℚ, d < 100 →
        sampleTempTick s ((s.lastSlowSample + d) % 2 ^ 32) temp = s)) ∧
    ((elapsed ((s.lastDisplay + d) % 2 ^ 32) s.lastDisplay ≥ DISPLAY_INTERVAL ↔ d ≥ 1000) ∧
      (d ≥ 1000 →
        displayColorTick s ((s.lastDisplay + d) % 2 ^ 32) =
          displayColorHistory
            { s with
              lastDisplay := (s.lastDisplay + d) % 2 ^ 32
              colorHistory := pushHistory s.colorHistory (currentColorOf s) } ∧
        (displayColorTick s ((s.lastDisplay + d) % 2 ^ 32)).lastDisplay =
          (s.lastDisplay + d) % 2 ^ 32 ∧
        displayTempTick s ((s.lastDisplay + d) % 2 ^ 32) =
          displayTemperatureHistory
            { s with
              lastDisplay := (s.lastDisplay + d) % 2 ^ 32
              serialOut := s.serialOut ++ [SerialLine.temperature (tempMean s)]
              tempHistory := pushHistory s.tempHistory (tempMean s) } ∧
        (displayTempTick s ((s.lastDisplay + d) % 2 ^ 32)).lastDisplay =
          (s.lastDisplay + d) % 2 ^ 32) ∧
      (d < 1000 →
        displayColorTick s ((s.lastDisplay + d) % 2 ^ 32) = s ∧
        displayTempTick s ((s.lastDisplay + d) % 2 ^ 32) = s)) := by
  refine ⟨?_, ?_, ?_⟩
  · have he := elapsed_wrap s.lastFastSample d hd
    have hiff : elapsed ((s.lastFastSample + d) % 2 ^ 32) s.lastFastSample ≥
        FAST_SAMPLE_INTERVAL ↔ d ≥ 100 := by rw [he]
    refine ⟨hiff, ?_, ?_⟩
    · intro lux h
      exact (runLightLevelMode_cases s _ lux).1 (hiff.mpr h)
    · intro lux h
      exact (runLightLevelMode_cases s _ lux).2 (fun h' => absurd (hiff.mp h') (by omega))
  · have he := elapsed_wrap s.lastSlowSample d hd
    have hiff : elapsed ((s.lastSlowSample + d) % 2 ^ 32) s.lastSlowSample ≥
        SLOW_SAMPLE_INTERVAL ↔ d ≥ 100 := by rw [he]
    refine ⟨hiff, ?_, ?_, ?_, ?_⟩
    · intro r g b h
      exact (sampleColorTick_cases s _ r g b).1 (hiff.mpr h)
    · intro r g b h
      exact (sampleColorTick_cases s _ r g b).2 (fun h' => absurd (hiff.mp h') (by omega))
    · intro temp h
      exact (sampleTempTick_cases s _ temp).1 (hiff.mpr h)
    · intro temp h
      exact (sampleTempTick_cases s _ temp).2 (fun h' => absurd (hiff.mp h') (by omega))
  · have he := elapsed_wrap s.lastDisplay d hd
    have hiff : elapsed ((s.lastDisplay + d) % 2 ^ 32) s.lastDisplay ≥
        DISPLAY_INTERVAL ↔ d ≥ 1000 := by rw [he]
    refine ⟨hiff, ?_, ?_⟩
    · intro h
      have e1 := displayColorTick_due s _ (hiff.mpr h)
      have e2 := displayTempTick_due s _ (hiff.mpr h)
      refine ⟨e1, ?_, e2, ?_⟩
      · rw [e1, displayColorHistory_eq]
      · rw [e2, displayTemperatureHistory_eq]
    · intro h
      have hn : ¬ elapsed ((s.lastDisplay + d) % 2 ^ 32) s.lastDisplay ≥ DISPLAY_INTERVAL :=
        fun h' => absurd (hiff.mp h') (by omega)
      exact ⟨displayColorTick_not_due s _ hn, displayTempTick_not_due s _ hn⟩

theorem cadence_wraparound_witness :
    (elapsed ((4294967290 + 100) % 2 ^ 32) 4294967290 ≥ SLOW_SAMPLE_INTERVAL ↔ 100 ≥ 100) ∧
    (∀ r g b : Nat, 100 ≥ 100 →
      sampleColorTick { initialState with lastSlowSample := 4294967290 }
          ((4294967290 + 100) % 2 ^ 32) r g b =
        recordColorSample
          { initialState with lastSlowSample := (4294967290 + 100) % 2 ^ 32 } r g b) :=
  ⟨(cadence_wraparound { initialState with lastSlowSample := 4294967290 } 100 (by norm_num)).2.1.1,
   (cadence_wraparound { initialState with lastSlowSample := 4294967290 } 100
      (by norm_num)).2.1.2.1⟩

end LightBench
